import Mathlib

set_option maxRecDepth 4000

/-!
Verification of the resumable evaluation engine of business-ocr-annotator.

The development is a shallow embedding of the two relevant source files:
  - application/amplify/functions/run-evaluation/metrics.py
  - application/amplify/functions/run-evaluation/handler.py

Python strings are modelled as `List Char` (sequences of code points),
Python floats as exact rationals `ℚ` (the float values flowing through the
engine originate from integer arithmetic, divisions and decimal rounding,
all of which are exact on `ℚ`), and `round(x, n)` as decimal
round-half-even on `ℚ`, matching Python's rounding mode.  The stateful
handler becomes a pure function from an invocation's inputs (message, job
record, dataset, predictor behaviour, timeout schedule) to the persisted
record, the emitted continuation and the raised/returned outcome.
-/

/-! ## String helpers (Python `str.lower`, `str.strip`, `str.split`) -/

/-- Python `str.lower()` on a sequence of code points. -/
def pyLower (s : List Char) : List Char :=
  s.map Char.toLower

/-- Python `str.strip()`: drop whitespace from both ends. -/
def pyStrip (s : List Char) : List Char :=
  ((s.dropWhile Char.isWhitespace).reverse.dropWhile Char.isWhitespace).reverse

/-- Python `str.split('\n')`: split on newline, keeping empty pieces. -/
def splitNL : List Char → List (List Char)
  | [] => [[]]
  | c :: rest =>
    if c = '\n' then [] :: splitNL rest
    else
      match splitNL rest with
      | [] => [[c]]
      | l :: ls => (c :: l) :: ls

/-- Abbreviation turning a Lean string literal into the code-point list model. -/
def chars (s : String) : List Char := s.toList

/-! ## metrics.py: `levenshtein_distance` (dynamic programming, lines 92-123) -/

/-- Inner loop of `levenshtein_distance`: builds `curr_row` (beyond its first
element) from the previous row.  `left` is the last element appended to
`curr_row`; `pj :: pj1 :: _` are `prev_row[j]`, `prev_row[j+1]`.
`insertions = prev_row[j+1] + 1`, `deletions = curr_row[j] + 1`,
`substitutions = prev_row[j] + (c1 != c2)`. -/
def buildRow (c1 : Char) : List Char → List Nat → Nat → List Nat
  | c2 :: t, pj :: pj1 :: prest, left =>
    let cur := min (pj1 + 1) (min (left + 1) (pj + (if c1 = c2 then 0 else 1)))
    cur :: buildRow c1 t (pj1 :: prest) cur
  | _, _, _ => []

/-- Outer loop of `levenshtein_distance`: one row per character of `s1`;
row `i` starts with `i + 1`. -/
def dpLoop (s2 : List Char) : List Char → Nat → List Nat → List Nat
  | [], _, prev => prev
  | c1 :: rest, i, prev => dpLoop s2 rest (i + 1) ((i + 1) :: buildRow c1 s2 prev (i + 1))

/-- The dynamic program of `levenshtein_distance` after the argument swap:
`prev_row = list(range(len(s2) + 1))`, then one row per char of `s1`,
answer `prev_row[-1]`; `len(s2) == 0` short-circuits to `len(s1)`. -/
def lev_dp (s1 s2 : List Char) : Nat :=
  if s2.length = 0 then s1.length
  else (dpLoop s2 s1 0 (List.range (s2.length + 1))).getLastD 0

/-- `levenshtein_distance(s1, s2)`: swaps the arguments when the first is
shorter, then runs the row dynamic program. -/
def levenshtein_distance (s1 s2 : List Char) : Nat :=
  if s1.length < s2.length then lev_dp s2 s1 else lev_dp s1 s2

/-! ## metrics.py: `calculate_single_anls` (lines 61-89) -/

/-- `calculate_single_anls(prediction, ground_truth, threshold)`:
lower-case and strip both inputs; both empty gives 1.0, exactly one empty
gives 0.0; otherwise `1 - lev_dist / max_len`, zeroed below the threshold. -/
def calculate_single_anls (prediction ground_truth : List Char) (threshold : ℚ) : ℚ :=
  let pred_norm := pyStrip (pyLower prediction)
  let gt_norm := pyStrip (pyLower ground_truth)
  if pred_norm = [] ∧ gt_norm = [] then 1
  else if pred_norm = [] ∨ gt_norm = [] then 0
  else
    let lev_dist := levenshtein_distance pred_norm gt_norm
    let max_len := max pred_norm.length gt_norm.length
    let anls := 1 - (lev_dist : ℚ) / (max_len : ℚ)
    if anls < threshold then 0 else anls

/-! ## metrics.py: `calculate_anls` (lines 13-58) -/

/-- The prediction items of `calculate_anls`:
`[line.strip() for line in prediction.split('\n') if line.strip()]`. -/
def pred_items (prediction : List Char) : List (List Char) :=
  ((splitNL prediction).map pyStrip).filter (fun l => l ≠ [])

/-- Inner loop of the multi-ground-truth branch of `calculate_anls`:
`best_anls` starts at 0.0 and takes the max over all prediction items. -/
def bestAnls (items : List (List Char)) (gt : List Char) (threshold : ℚ) : ℚ :=
  items.foldl (fun best pred => max best (calculate_single_anls pred gt threshold)) 0

/-- `calculate_anls(prediction, ground_truths, threshold)`: empty list gives
0.0; a single ground truth delegates to `calculate_single_anls`; otherwise
split the prediction into items (0.0 when none remain) and average the
per-ground-truth best item scores. -/
def calculate_anls (prediction : List Char) (ground_truths : List (List Char))
    (threshold : ℚ) : ℚ :=
  if ground_truths = [] then 0
  else if ground_truths.length = 1 then
    calculate_single_anls prediction (ground_truths.headD []) threshold
  else
    let items := pred_items prediction
    if items = [] then 0
    else
      (ground_truths.foldl (fun total gt => total + bestAnls items gt threshold) 0) /
        (ground_truths.length : ℚ)

/-! ## metrics.py: `calculate_iou` (lines 126-163) -/

/-- `calculate_iou(pred_bbox, gt_bbox)`: 0.0 unless both boxes have exactly
4 coordinates; axis-aligned intersection over union, 0.0 when the union is
not positive. -/
def calculate_iou (pred_bbox gt_bbox : List ℚ) : ℚ :=
  if pred_bbox.length ≠ 4 ∨ gt_bbox.length ≠ 4 then 0
  else
    let x1 := max (pred_bbox.getD 0 0) (gt_bbox.getD 0 0)
    let y1 := max (pred_bbox.getD 1 0) (gt_bbox.getD 1 0)
    let x2 := min (pred_bbox.getD 2 0) (gt_bbox.getD 2 0)
    let y2 := min (pred_bbox.getD 3 0) (gt_bbox.getD 3 0)
    let intersection := max 0 (x2 - x1) * max 0 (y2 - y1)
    let pred_area :=
      (pred_bbox.getD 2 0 - pred_bbox.getD 0 0) * (pred_bbox.getD 3 0 - pred_bbox.getD 1 0)
    let gt_area :=
      (gt_bbox.getD 2 0 - gt_bbox.getD 0 0) * (gt_bbox.getD 3 0 - gt_bbox.getD 1 0)
    let union := pred_area + gt_area - intersection
    if union ≤ 0 then 0 else intersection / union

/-! ## Python `round(x, n)` (used by `save_checkpoint` and the final write) -/

/-- Round-half-even on `ℚ`, Python's rounding mode for `round`. -/
def roundHalfEven (q : ℚ) : ℤ :=
  let f := Rat.floor q
  let r := q - (f : ℚ)
  if r < 1/2 then f
  else if 1/2 < r then f + 1
  else if f % 2 = 0 then f else f + 1

/-- Python `round(x, n)` for nonnegative `n`: decimal rounding to `n` places. -/
def round_to (n : Nat) (x : ℚ) : ℚ :=
  ((roundHalfEven (x * ((10 ^ n : ℕ) : ℚ)) : ℚ)) / ((10 ^ n : ℕ) : ℚ)

/-! Sanity checks of the metric engine on the test values of the spec. -/

example : levenshtein_distance (chars "hello") (chars "hallo") = 1 := by decide
example : calculate_single_anls (chars "hello") (chars "hallo") (1/2) = 4/5 := by
  with_unfolding_all decide
example : calculate_single_anls (chars "") (chars "") (1/2) = 1 := by
  with_unfolding_all decide
example : calculate_anls (chars "a\nb") (chars "a" :: [chars "b"]) (1/2) = 1 := by
  with_unfolding_all decide
example : calculate_iou [0, 0, 1, 1] [0, 0, 1, (1:ℚ)/3] = 1/3 := by
  with_unfolding_all decide
example : (round_to 8 ((1:ℚ)/3)).num = 33333333 ∧ (round_to 8 ((1:ℚ)/3)).den = 100000000 := by
  with_unfolding_all decide

/-! ## Reference recursion for the edit-distance dynamic program

`levc` is the textbook head recursion for Levenshtein distance.  The row
dynamic program of `levenshtein_distance` computes `levc` on the reversed
strings, which is enough to derive the identity, empty-string and symmetry
properties claimed by the spec. -/

/-- Textbook Levenshtein recursion, peeling first characters. -/
def levc : List Char → List Char → Nat
  | [], t => t.length
  | s, [] => s.length
  | a :: s, b :: t =>
    min (levc s (b :: t) + 1) (min (levc (a :: s) t + 1) (levc s t + (if a = b then 0 else 1)))

theorem levc_nil_left (t : List Char) : levc [] t = t.length := by
  cases t <;> simp [levc]

theorem levc_nil_right (s : List Char) : levc s [] = s.length := by
  cases s <;> simp [levc]

theorem levc_cons (a b : Char) (s t : List Char) :
    levc (a :: s) (b :: t) =
      min (levc s (b :: t) + 1)
        (min (levc (a :: s) t + 1) (levc s t + (if a = b then 0 else 1))) := by
  simp [levc]

theorem levc_self (s : List Char) : levc s s = 0 := by
  induction s with
  | nil => simp [levc]
  | cons a s ih => rw [levc_cons]; simp [ih]

theorem levc_comm (s t : List Char) : levc s t = levc t s := by
  induction s generalizing t with
  | nil => rw [levc_nil_left, levc_nil_right]
  | cons a s ih =>
    induction t with
    | nil => rw [levc_nil_left, levc_nil_right]
    | cons b t iht =>
      rw [levc_cons, levc_cons, ih (b :: t), iht, ih t]
      have hd : (if a = b then 0 else 1) = (if b = a then 0 else 1) := by
        by_cases h : a = b
        · rw [if_pos h, if_pos h.symm]
        · rw [if_neg h, if_neg (fun hba => h hba.symm)]
      rw [hd]
      omega

/-- The row of the dynamic program after consuming prefix `d` of the first
string: distances of `d` (as a suffix-building reversal) against the
prefixes of the second string extending `u`. -/
def rowFrom (x : List Char) : List Char → List Char → List Nat
  | u, [] => [levc x.reverse u.reverse]
  | u, b :: t => levc x.reverse u.reverse :: rowFrom x (u ++ [b]) t

theorem rowFrom_head (x u : List Char) (t : List Char) :
    rowFrom x u t = levc x.reverse u.reverse :: (rowFrom x u t).tail := by
  cases t <;> simp [rowFrom]

theorem rowFrom_getLastD (x : List Char) :
    ∀ (t u : List Char) (dflt : Nat),
      (rowFrom x u t).getLastD dflt = levc x.reverse (u ++ t).reverse := by
  intro t
  induction t with
  | nil => intro u dflt; simp [rowFrom]
  | cons b t ih =>
    intro u dflt
    rw [show rowFrom x u (b :: t) = levc x.reverse u.reverse :: rowFrom x (u ++ [b]) t from rfl]
    rw [List.getLastD_cons, ih (u ++ [b])]
    simp [List.append_assoc]

theorem buildRow_spec (c : Char) (d : List Char) :
    ∀ (t u : List Char) (left : Nat),
      left = levc (c :: d.reverse) u.reverse →
      buildRow c t (rowFrom d u t) left = (rowFrom (d ++ [c]) u t).tail := by
  intro t
  induction t with
  | nil =>
    intro u left _
    simp [rowFrom, buildRow]
  | cons b t ih =>
    intro u left hl
    have hcur : min (levc d.reverse (u ++ [b]).reverse + 1)
        (min (left + 1) (levc d.reverse u.reverse + (if c = b then 0 else 1))) =
        levc (c :: d.reverse) (u ++ [b]).reverse := by
      rw [hl, show (u ++ [b]).reverse = b :: u.reverse by simp, levc_cons]
    have hrec := ih (u ++ [b]) _ hcur
    rw [show rowFrom d u (b :: t) = levc d.reverse u.reverse :: rowFrom d (u ++ [b]) t from rfl]
    rw [rowFrom_head d (u ++ [b]) t]
    show (min (levc d.reverse (u ++ [b]).reverse + 1)
        (min (left + 1) (levc d.reverse u.reverse + (if c = b then 0 else 1)))) ::
        buildRow c t
          (levc d.reverse (u ++ [b]).reverse :: (rowFrom d (u ++ [b]) t).tail)
          (min (levc d.reverse (u ++ [b]).reverse + 1)
            (min (left + 1) (levc d.reverse u.reverse + (if c = b then 0 else 1)))) =
        (rowFrom (d ++ [c]) u (b :: t)).tail
    rw [← rowFrom_head d (u ++ [b]) t]
    rw [hrec, hcur]
    rw [show rowFrom (d ++ [c]) u (b :: t) =
      levc (d ++ [c]).reverse u.reverse :: rowFrom (d ++ [c]) (u ++ [b]) t from rfl]
    rw [List.tail_cons]
    rw [show levc (c :: d.reverse) (u ++ [b]).reverse = levc (d ++ [c]).reverse (u ++ [b]).reverse by
      rw [show (d ++ [c]).reverse = c :: d.reverse by simp]]
    exact (rowFrom_head (d ++ [c]) (u ++ [b]) t).symm

theorem dpLoop_spec (s2 : List Char) :
    ∀ (r d : List Char), dpLoop s2 r d.length (rowFrom d [] s2) = rowFrom (d ++ r) [] s2 := by
  intro r
  induction r with
  | nil => intro d; simp [dpLoop]
  | cons c r ih =>
    intro d
    rw [show dpLoop s2 (c :: r) d.length (rowFrom d [] s2) =
      dpLoop s2 r (d.length + 1) ((d.length + 1) :: buildRow c s2 (rowFrom d [] s2) (d.length + 1))
      from rfl]
    have hleft : (d.length + 1 : Nat) = levc (c :: d.reverse) ([] : List Char).reverse := by
      rw [show ([] : List Char).reverse = [] from rfl, levc_nil_right]
      simp
    have hrow : (d.length + 1) :: buildRow c s2 (rowFrom d [] s2) (d.length + 1) =
        rowFrom (d ++ [c]) [] s2 := by
      rw [buildRow_spec c d s2 [] (d.length + 1) hleft]
      rw [rowFrom_head (d ++ [c]) [] s2]
      rw [show levc (d ++ [c]).reverse ([] : List Char).reverse = d.length + 1 by
        rw [show ([] : List Char).reverse = [] from rfl, levc_nil_right]; simp]
      simp
    rw [hrow]
    have := ih (d ++ [c])
    rw [show (d ++ [c]).length = d.length + 1 by simp] at this
    rw [this, List.append_assoc, List.singleton_append]

theorem rowFrom_nil_eq_range' :
    ∀ (t u : List Char), rowFrom [] u t = List.range' u.length (t.length + 1) := by
  intro t
  induction t with
  | nil => intro u; simp [rowFrom, levc_nil_left]
  | cons b t ih =>
    intro u
    rw [show rowFrom [] u (b :: t) = levc ([] : List Char).reverse u.reverse :: rowFrom [] (u ++ [b]) t
      from rfl]
    rw [ih (u ++ [b])]
    rw [show levc ([] : List Char).reverse u.reverse = u.length by
      rw [show ([] : List Char).reverse = [] from rfl, levc_nil_left]; simp]
    rw [show (u ++ [b]).length = u.length + 1 by simp]
    rw [show (b :: t).length = t.length + 1 from rfl]
    simp [List.range'_succ]

theorem lev_dp_eq (s1 s2 : List Char) : lev_dp s1 s2 = levc s1.reverse s2.reverse := by
  unfold lev_dp
  by_cases h : s2.length = 0
  · rw [if_pos h]
    rw [List.length_eq_zero] at h
    subst h
    rw [show ([] : List Char).reverse = [] from rfl, levc_nil_right]
    simp
  · rw [if_neg h]
    have h0 : List.range (s2.length + 1) = rowFrom [] [] s2 := by
      rw [rowFrom_nil_eq_range' s2 []]
      rw [List.range_eq_range']
      rfl
    rw [h0]
    have hd := dpLoop_spec s2 s1 []
    rw [show ([] : List Char).length = 0 from rfl, List.nil_append] at hd
    rw [hd, rowFrom_getLastD s1 s2 [] 0, List.nil_append]

theorem levenshtein_eq (s1 s2 : List Char) :
    levenshtein_distance s1 s2 = levc s1.reverse s2.reverse := by
  unfold levenshtein_distance
  by_cases h : s1.length < s2.length
  · rw [if_pos h, lev_dp_eq, levc_comm]
  · rw [if_neg h, lev_dp_eq]

theorem levenshtein_self (s : List Char) : levenshtein_distance s s = 0 := by
  rw [levenshtein_eq, levc_self]

theorem levenshtein_nil_right (s : List Char) : levenshtein_distance s [] = s.length := by
  rw [levenshtein_eq, show ([] : List Char).reverse = [] from rfl, levc_nil_right]
  simp

theorem levenshtein_comm (a b : List Char) :
    levenshtein_distance a b = levenshtein_distance b a := by
  rw [levenshtein_eq, levenshtein_eq, levc_comm]

/-! ## handler.py: data model of the evaluation job controller -/

/-- A dataset sample as consumed by the loop (`sample['answers']`,
`sample['answer_bbox']`, plus the question forwarded to the predictor). -/
structure Sample where
  question : List Char
  answers : List (List Char)
  answer_bbox : List ℚ
deriving DecidableEq

/-- A parsed model response (`parse_model_response` always yields an
`answer` string and a `bbox` list). -/
structure Prediction where
  answer : List Char
  bbox : List ℚ
deriving DecidableEq

/-- The external predictor: one call of `invoke_model` on a sample either
returns a parsed prediction or raises, carrying an error text (any
exception inside the per-sample `try` block is modelled here). -/
abbrev Predictor := Sample → Except (List Char) Prediction

inductive JobStatus
  | PENDING
  | RUNNING
  | COMPLETED
  | FAILED
deriving DecidableEq

/-- The checkpoint embedded in the EvaluationJob record. -/
structure Checkpoint where
  sampleIndex : Nat
  samplesEvaluated : Nat
  samplesFailed : Nat
  runningAnls : ℚ
  runningIou : ℚ
  part : Nat
deriving DecidableEq

/-- The persisted fields of the EvaluationJob record that the handler
reads or writes. -/
structure JobRecord where
  status : JobStatus
  avgAnls : Option ℚ
  avgIou : Option ℚ
  totalSamples : Option Nat
  failedSamples : Option Nat
  errorMessage : Option (List Char)
  checkpoint : Option Checkpoint
deriving DecidableEq

/-- The SQS message body driving one invocation. -/
structure EvalMessage where
  evaluationJobId : String
  jobId : String
  datasetVersion : String
  huggingFaceRepoId : String
  modelId : String
  modelName : String
  modelBedrockId : String
  evaluationJobTableName : String
  evaluationQueueUrl : String
deriving DecidableEq

/-! Error-message strings built by the handler. -/

def natChars (n : Nat) : List Char := (Nat.repr n).toList

def joinSemi (errs : List (List Char)) : List Char :=
  List.intercalate (chars "; ") errs

/-- `f'Sample {i}: {str(e)[:100]}'` -/
def sampleErrorText (i : Nat) (e : List Char) : List Char :=
  chars "Sample " ++ natChars i ++ chars ": " ++ e.take 100

/-- The `RuntimeError` text raised when every sample failed. -/
def allFailedText (total : Nat) (errs : List (List Char)) : List Char :=
  chars "All " ++ natChars total ++ chars " samples failed to evaluate. Errors: " ++
    joinSemi (errs.take 3)

/-- The `error_summary` attached to a COMPLETED job with failures. -/
def completedErrorText (failed : Nat) (errs : List (List Char)) : List Char :=
  natChars failed ++ chars " samples failed: " ++ joinSemi (errs.take 3)

/-! ## handler.py: the per-sample loop of `process_evaluation_job` -/

/-- The loop-local mutable state: counts, running means, and the bounded
diagnostic list `failed_sample_errors` (first 10 only). -/
structure LoopState where
  samplesEvaluated : Nat
  samplesFailed : Nat
  runningAnls : ℚ
  runningIou : ℚ
  failedErrors : List (List Char)
deriving DecidableEq

/-- One loop iteration past the timeout check: invoke the predictor; on
failure count it and keep a bounded diagnostic; on success update both
running means incrementally. -/
def evalSample (predictor : Predictor) (st : LoopState) (i : Nat) (s : Sample) : LoopState :=
  match predictor s with
  | .error e =>
    { st with
      samplesFailed := st.samplesFailed + 1
      failedErrors :=
        if st.failedErrors.length < 10 then st.failedErrors ++ [sampleErrorText i e]
        else st.failedErrors }
  | .ok p =>
    let anls := calculate_anls p.answer s.answers (1/2)
    let iou := calculate_iou p.bbox s.answer_bbox
    let n := st.samplesEvaluated + 1
    { st with
      samplesEvaluated := n
      runningAnls := st.runningAnls + (anls - st.runningAnls) / (n : ℚ)
      runningIou := st.runningIou + (iou - st.runningIou) / (n : ℚ) }

inductive LoopOutcome
  | suspended (sampleIndex : Nat) (st : LoopState)
  | finished (st : LoopState)
deriving DecidableEq

/-- The index-sample pairs of `for i in range(start, total): dataset[i]`. -/
def enumFrom : Nat → List Sample → List (Nat × Sample)
  | _, [] => []
  | i, s :: rest => (i, s) :: enumFrom (i + 1) rest

/-- The loop of `process_evaluation_job`: before each sample check
`is_approaching_timeout()` (modelled as a predicate of the index at which
the check happens); on timeout suspend at that index, otherwise evaluate
the sample and continue. -/
def runLoop (timeout : Nat → Bool) (predictor : Predictor) :
    List (Nat × Sample) → LoopState → LoopOutcome
  | [], st => .finished st
  | (i, s) :: rest, st =>
    if timeout i then .suspended i st
    else runLoop timeout predictor rest (evalSample predictor st i s)

/-! ## handler.py: checkpoint store and the invocation function -/

/-- `load_checkpoint`: the checkpoint embedded in the job record, if any. -/
def load_checkpoint (record : JobRecord) : Option Checkpoint :=
  record.checkpoint

/-- The value written by `save_checkpoint`: running means rounded to 8
decimal places for persistence. -/
def save_checkpoint (i e f : Nat) (ra ri : ℚ) (part : Nat) : Checkpoint :=
  { sampleIndex := i
    samplesEvaluated := e
    samplesFailed := f
    runningAnls := round_to 8 ra
    runningIou := round_to 8 ri
    part := part }

/-- `start_index = checkpoint.get('sampleIndex', 0)`. -/
def startIndexOf (record : JobRecord) : Nat :=
  ((load_checkpoint record).map Checkpoint.sampleIndex).getD 0

/-- Loop state restored from the checkpoint (or zeroed); the diagnostic
list starts empty on every invocation. -/
def initLoopState (cp : Option Checkpoint) : LoopState :=
  { samplesEvaluated := (cp.map Checkpoint.samplesEvaluated).getD 0
    samplesFailed := (cp.map Checkpoint.samplesFailed).getD 0
    runningAnls := (cp.map Checkpoint.runningAnls).getD 0
    runningIou := (cp.map Checkpoint.runningIou).getD 0
    failedErrors := [] }

/-- The loop outcome of one invocation. -/
def loopOutcomeOf (record : JobRecord) (dataset : List Sample) (predictor : Predictor)
    (timeout : Nat → Bool) : LoopOutcome :=
  runLoop timeout predictor
    (enumFrom (startIndexOf record) (dataset.drop (startIndexOf record)))
    (initLoopState (load_checkpoint record))

/-- Everything one invocation leaves behind: the persisted job record, the
continuation message sent (if any), whether the invocation re-raised, the
status values written in order, and how many predictor calls were made. -/
structure InvocationResult where
  record : JobRecord
  continuation : Option EvalMessage
  raised : Bool
  statusWrites : List JobStatus
  predictorCalls : Nat
deriving DecidableEq

/-- `process_evaluation_job(message)` for one invocation, as a function of
the dataset, the predictor behaviour and the timeout schedule.  Mirrors
handler.py lines 124-393: load the checkpoint, mark the job RUNNING,
run the loop from the resume index; on suspension save the checkpoint
(`part` from the loaded checkpoint plus `(1 if is_resume else 1)`) and
re-enqueue unless the queue URL is empty; on completion either raise and
persist FAILED (no successful sample on a non-empty dataset) or persist
COMPLETED with rounded aggregates and the checkpoint removed. -/
def process_evaluation_job (message : EvalMessage) (record : JobRecord)
    (dataset : List Sample) (predictor : Predictor) (timeout : Nat → Bool) :
    InvocationResult :=
  let checkpoint := load_checkpoint record
  let start_index := startIndexOf record
  let is_resume : Bool := decide (0 < start_index)
  let running : JobRecord := { record with status := .RUNNING }
  match loopOutcomeOf record dataset predictor timeout with
  | .suspended i st =>
    let cp := save_checkpoint i st.samplesEvaluated st.samplesFailed st.runningAnls st.runningIou
      ((checkpoint.map Checkpoint.part).getD 1 + (if is_resume then 1 else 1))
    { record := { running with checkpoint := some cp }
      continuation := if message.evaluationQueueUrl = "" then none else some message
      raised := false
      statusWrites := [.RUNNING]
      predictorCalls := i - start_index }
  | .finished st =>
    if st.samplesEvaluated = 0 ∧ 0 < dataset.length then
      { record := { running with
          status := .FAILED
          errorMessage := some ((allFailedText dataset.length st.failedErrors).take 1000) }
        continuation := none
        raised := true
        statusWrites := [.RUNNING, .FAILED]
        predictorCalls := dataset.length - start_index }
    else
      { record := { running with
          status := .COMPLETED
          avgAnls := some (round_to 6 st.runningAnls)
          avgIou := some (round_to 6 st.runningIou)
          totalSamples := some st.samplesEvaluated
          failedSamples := some st.samplesFailed
          errorMessage :=
            if 0 < st.samplesFailed then
              some (completedErrorText st.samplesFailed st.failedErrors)
            else running.errorMessage
          checkpoint := none }
        continuation := none
        raised := false
        statusWrites := [.RUNNING, .COMPLETED]
        predictorCalls := dataset.length - start_index }

/-- The timeout schedule of an invocation that never runs out of budget. -/
def noTimeout : Nat → Bool := fun _ => false

/-- A timeout schedule whose budget is exhausted from the check before
sample `k` onwards. -/
def timeoutFrom (k : Nat) : Nat → Bool := fun i => decide (k ≤ i)

/-- Loop state reached after the first `k` samples of a fresh run. -/
def stateUpTo (predictor : Predictor) (dataset : List Sample) (k : Nat) : LoopState :=
  (enumFrom 0 (dataset.take k)).foldl (fun st p => evalSample predictor st p.1 p.2)
    (initLoopState none)

/-! ## Facts about `calculate_single_anls` -/

theorem single_anls_self (g : List Char) : calculate_single_anls g g (1/2) = 1 := by
  unfold calculate_single_anls
  by_cases h : pyStrip (pyLower g) = []
  · simp [h]
  · rw [if_neg (by simp [h]), if_neg (by simp [h]), levenshtein_self]
    rw [if_neg (by push_cast; norm_num)]
    push_cast
    norm_num

theorem single_anls_bounds (p g : List Char) (th : ℚ) (hth : 0 ≤ th) :
    0 ≤ calculate_single_anls p g th ∧ calculate_single_anls p g th ≤ 1 := by
  unfold calculate_single_anls
  by_cases h1 : pyStrip (pyLower p) = [] ∧ pyStrip (pyLower g) = []
  · rw [if_pos h1]; norm_num
  · rw [if_neg h1]
    by_cases h2 : pyStrip (pyLower p) = [] ∨ pyStrip (pyLower g) = []
    · rw [if_pos h2]; norm_num
    · rw [if_neg h2]
      by_cases h3 :
          1 - (levenshtein_distance (pyStrip (pyLower p)) (pyStrip (pyLower g)) : ℚ) /
            ((max (pyStrip (pyLower p)).length (pyStrip (pyLower g)).length : ℕ) : ℚ) < th
      · rw [if_pos h3]; norm_num
      · rw [if_neg h3]
        push_neg at h3
        constructor
        · linarith
        · have hd : (0:ℚ) ≤ (levenshtein_distance (pyStrip (pyLower p)) (pyStrip (pyLower g)) : ℚ) :=
            Nat.cast_nonneg _
          have hL : (0:ℚ) ≤ ((max (pyStrip (pyLower p)).length (pyStrip (pyLower g)).length : ℕ) : ℚ) :=
            Nat.cast_nonneg _
          have := div_nonneg hd hL
          linarith

/-! ## Fold lemmas for the inner maximum and the ground-truth sum -/

theorem foldl_max_init_le : ∀ (l : List ℚ) (a : ℚ), a ≤ l.foldl max a := by
  intro l
  induction l with
  | nil => intro a; exact le_refl a
  | cons x l ih =>
    intro a
    calc a ≤ max a x := le_max_left a x
    _ ≤ l.foldl max (max a x) := ih (max a x)

theorem foldl_max_le_of_forall (c : ℚ) :
    ∀ (l : List ℚ) (a : ℚ), a ≤ c → (∀ x ∈ l, x ≤ c) → l.foldl max a ≤ c := by
  intro l
  induction l with
  | nil => intro a ha _; exact ha
  | cons x l ih =>
    intro a ha hl
    exact ih (max a x) (max_le ha (hl x (by simp)))
      (fun y hy => hl y (by simp [hy]))

theorem foldl_max_mem_le : ∀ (l : List ℚ) (a : ℚ) (x : ℚ), x ∈ l → x ≤ l.foldl max a := by
  intro l
  induction l with
  | nil => intro a x hx; cases hx
  | cons y l ih =>
    intro a x hx
    rcases List.mem_cons.mp hx with h | h
    · subst h
      calc x ≤ max a x := le_max_right a x
      _ ≤ l.foldl max (max a x) := foldl_max_init_le l (max a x)
    · exact ih (max a y) x h

theorem bestAnls_eq_foldl_map (items : List (List Char)) (gt : List Char) (th : ℚ) :
    bestAnls items gt th = (items.map (fun it => calculate_single_anls it gt th)).foldl max 0 := by
  rw [bestAnls, List.foldl_map]

theorem bestAnls_bounds (items : List (List Char)) (gt : List Char) (th : ℚ) (hth : 0 ≤ th) :
    0 ≤ bestAnls items gt th ∧ bestAnls items gt th ≤ 1 := by
  rw [bestAnls_eq_foldl_map]
  constructor
  · exact foldl_max_init_le _ 0
  · refine foldl_max_le_of_forall 1 _ 0 (by norm_num) ?bnd
    intro x hx
    obtain ⟨it, _, rfl⟩ := List.mem_map.mp hx
    exact (single_anls_bounds it gt th hth).2

theorem bestAnls_eq_one (items : List (List Char)) (gt : List Char)
    (hmem : gt ∈ items) : bestAnls items gt (1/2) = 1 := by
  rw [bestAnls_eq_foldl_map]
  refine le_antisymm ?ub ?lb
  · refine foldl_max_le_of_forall 1 _ 0 (by norm_num) ?allle
    intro x hx
    obtain ⟨it, _, rfl⟩ := List.mem_map.mp hx
    exact (single_anls_bounds it gt (1/2) (by norm_num)).2
  · have hmem2 : calculate_single_anls gt gt (1/2) ∈
        items.map (fun it => calculate_single_anls it gt (1/2)) :=
      List.mem_map.mpr ⟨gt, hmem, rfl⟩
    have hle := foldl_max_mem_le _ 0 _ hmem2
    rw [single_anls_self gt] at hle
    exact hle

theorem bestAnls_eq_zero (items : List (List Char)) (gt : List Char) (th : ℚ)
    (h0 : ∀ it ∈ items, calculate_single_anls it gt th = 0) :
    bestAnls items gt th = 0 := by
  rw [bestAnls_eq_foldl_map]
  refine le_antisymm ?ub (foldl_max_init_le _ 0)
  refine foldl_max_le_of_forall 0 _ 0 (le_refl 0) ?allz
  intro x hx
  obtain ⟨it, hit, rfl⟩ := List.mem_map.mp hx
  exact le_of_eq (h0 it hit)

theorem foldl_sum_indicator (items : List (List Char)) :
    ∀ (gts : List (List Char)) (acc : ℚ),
      (∀ g ∈ gts, g ∈ items → bestAnls items g (1/2) = 1) →
      (∀ g ∈ gts, g ∉ items → bestAnls items g (1/2) = 0) →
      gts.foldl (fun total gt => total + bestAnls items gt (1/2)) acc =
        acc + ((gts.filter (fun g => decide (g ∈ items))).length : ℚ) := by
  intro gts
  induction gts with
  | nil => intro acc _ _; simp
  | cons g gts ih =>
    intro acc h1 h0
    rw [show (g :: gts).foldl (fun total gt => total + bestAnls items gt (1/2)) acc =
      gts.foldl (fun total gt => total + bestAnls items gt (1/2))
        (acc + bestAnls items g (1/2)) from rfl]
    rw [ih (acc + bestAnls items g (1/2))
      (fun x hx => h1 x (by simp [hx])) (fun x hx => h0 x (by simp [hx]))]
    by_cases hg : g ∈ items
    · rw [h1 g (by simp) hg]
      rw [show List.filter (fun g => decide (g ∈ items)) (g :: gts) =
        g :: List.filter (fun g => decide (g ∈ items)) gts from
          List.filter_cons_of_pos (by simp [hg])]
      rw [List.length_cons]
      push_cast
      ring
    · rw [h0 g (by simp) hg]
      rw [show List.filter (fun g => decide (g ∈ items)) (g :: gts) =
        List.filter (fun g => decide (g ∈ items)) gts from
          List.filter_cons_of_neg (by simp [hg])]
      ring

/-! ## Facts about `calculate_iou` -/

theorem list_len4 (l : List ℚ) (h : l.length = 4) :
    ∃ x0 x1 x2 x3 : ℚ, l = [x0, x1, x2, x3] := by
  match l, h with
  | [x0, x1, x2, x3], _ => exact ⟨x0, x1, x2, x3, rfl⟩

theorem iou_eq (a0 a1 a2 a3 b0 b1 b2 b3 : ℚ) :
    calculate_iou [a0, a1, a2, a3] [b0, b1, b2, b3] =
      if (a2 - a0) * (a3 - a1) + (b2 - b0) * (b3 - b1) -
          max 0 (min a2 b2 - max a0 b0) * max 0 (min a3 b3 - max a1 b1) ≤ 0 then 0
      else (max 0 (min a2 b2 - max a0 b0) * max 0 (min a3 b3 - max a1 b1)) /
        ((a2 - a0) * (a3 - a1) + (b2 - b0) * (b3 - b1) -
          max 0 (min a2 b2 - max a0 b0) * max 0 (min a3 b3 - max a1 b1)) := by
  simp [calculate_iou]

theorem iou_zero_of_bad_length (a b : List ℚ) (h : a.length ≠ 4 ∨ b.length ≠ 4) :
    calculate_iou a b = 0 := by
  unfold calculate_iou
  rw [if_pos h]

theorem iou_comm (a b : List ℚ) : calculate_iou a b = calculate_iou b a := by
  by_cases ha : a.length = 4
  · by_cases hb : b.length = 4
    · obtain ⟨a0, a1, a2, a3, rfl⟩ := list_len4 a ha
      obtain ⟨b0, b1, b2, b3, rfl⟩ := list_len4 b hb
      rw [iou_eq, iou_eq]
      rw [min_comm b2 a2, min_comm b3 a3, max_comm b0 a0, max_comm b1 a1,
        add_comm ((b2 - b0) * (b3 - b1)) ((a2 - a0) * (a3 - a1))]
    · rw [iou_zero_of_bad_length a b (Or.inr hb), iou_zero_of_bad_length b a (Or.inl hb)]
  · rw [iou_zero_of_bad_length a b (Or.inl ha), iou_zero_of_bad_length b a (Or.inr ha)]

theorem iou_self (a0 a1 a2 a3 : ℚ) (h02 : a0 < a2) (h13 : a1 < a3) :
    calculate_iou [a0, a1, a2, a3] [a0, a1, a2, a3] = 1 := by
  rw [iou_eq, min_self, min_self, max_self, max_self]
  rw [max_eq_right (by linarith : (0:ℚ) ≤ a2 - a0), max_eq_right (by linarith : (0:ℚ) ≤ a3 - a1)]
  have hA : (0:ℚ) < (a2 - a0) * (a3 - a1) := mul_pos (by linarith) (by linarith)
  rw [if_neg (by linarith)]
  rw [show (a2 - a0) * (a3 - a1) + (a2 - a0) * (a3 - a1) - (a2 - a0) * (a3 - a1) =
    (a2 - a0) * (a3 - a1) by ring]
  exact div_self hA.ne'

theorem iou_disjoint (a0 a1 a2 a3 b0 b1 b2 b3 : ℚ)
    (h : a2 ≤ b0 ∨ b2 ≤ a0 ∨ a3 ≤ b1 ∨ b3 ≤ a1) :
    calculate_iou [a0, a1, a2, a3] [b0, b1, b2, b3] = 0 := by
  rw [iou_eq]
  have hinter : max 0 (min a2 b2 - max a0 b0) * max 0 (min a3 b3 - max a1 b1) = 0 := by
    rcases h with h | h | h | h
    · have h1 : min a2 b2 ≤ a2 := min_le_left a2 b2
      have h2 : b0 ≤ max a0 b0 := le_max_right a0 b0
      rw [max_eq_left (by linarith : min a2 b2 - max a0 b0 ≤ 0), zero_mul]
    · have h1 : min a2 b2 ≤ b2 := min_le_right a2 b2
      have h2 : a0 ≤ max a0 b0 := le_max_left a0 b0
      rw [max_eq_left (by linarith : min a2 b2 - max a0 b0 ≤ 0), zero_mul]
    · have h1 : min a3 b3 ≤ a3 := min_le_left a3 b3
      have h2 : b1 ≤ max a1 b1 := le_max_right a1 b1
      rw [max_eq_left (by linarith : min a3 b3 - max a1 b1 ≤ 0), mul_zero]
    · have h1 : min a3 b3 ≤ b3 := min_le_right a3 b3
      have h2 : a1 ≤ max a1 b1 := le_max_left a1 b1
      rw [max_eq_left (by linarith : min a3 b3 - max a1 b1 ≤ 0), mul_zero]
  rw [hinter]
  split
  · rfl
  · rw [zero_div]

/-! ## Claim theorems: metric engine -/

/-- Claim C9: `levenshtein_distance`, operating on sequences of code
points, satisfies `distance(s, s) = 0`, `distance(s, "") = len(s)`, and
symmetry `distance(a, b) = distance(b, a)`, including across the
implementation's argument swap when the first string is shorter. -/
theorem C9_levenshtein_algebra :
    (∀ s : List Char, levenshtein_distance s s = 0) ∧
    (∀ s : List Char, levenshtein_distance s [] = s.length) ∧
    (∀ a b : List Char, levenshtein_distance a b = levenshtein_distance b a) :=
  ⟨levenshtein_self, levenshtein_nil_right, levenshtein_comm⟩

/-- Claim C7: `calculate_single_anls` lower-cases and trims both inputs;
both normalized strings empty gives 1.0; exactly one empty gives 0.0;
otherwise the score `1 - levenshteinDistance/maxLength`, replaced by 0.0
below the threshold; and the spec's three examples
`singleAnls("", "") = 1`, `singleAnls("x", "") = 0`,
`singleAnls("hello", "hallo") = 0.8` hold. -/
theorem C7_single_anls_spec :
    (∀ (p g : List Char) (th : ℚ),
      pyStrip (pyLower p) = [] → pyStrip (pyLower g) = [] →
      calculate_single_anls p g th = 1) ∧
    (∀ (p g : List Char) (th : ℚ),
      pyStrip (pyLower p) = [] → pyStrip (pyLower g) ≠ [] →
      calculate_single_anls p g th = 0) ∧
    (∀ (p g : List Char) (th : ℚ),
      pyStrip (pyLower p) ≠ [] → pyStrip (pyLower g) = [] →
      calculate_single_anls p g th = 0) ∧
    (∀ (p g : List Char) (th : ℚ),
      pyStrip (pyLower p) ≠ [] → pyStrip (pyLower g) ≠ [] →
      calculate_single_anls p g th =
        (if 1 - (levenshtein_distance (pyStrip (pyLower p)) (pyStrip (pyLower g)) : ℚ) /
            ((max (pyStrip (pyLower p)).length (pyStrip (pyLower g)).length : ℕ) : ℚ) < th
         then 0
         else 1 - (levenshtein_distance (pyStrip (pyLower p)) (pyStrip (pyLower g)) : ℚ) /
            ((max (pyStrip (pyLower p)).length (pyStrip (pyLower g)).length : ℕ) : ℚ))) ∧
    calculate_single_anls (chars "") (chars "") (1/2) = 1 ∧
    calculate_single_anls (chars "x") (chars "") (1/2) = 0 ∧
    calculate_single_anls (chars "hello") (chars "hallo") (1/2) = 4/5 := by
  refine ⟨?both, ?lft, ?rgt, ?fml, ?e1, ?e2, ?e3⟩
  · intro p g th h1 h2
    unfold calculate_single_anls
    rw [if_pos ⟨h1, h2⟩]
  · intro p g th h1 h2
    unfold calculate_single_anls
    rw [if_neg (by simp [h1, h2]), if_pos (Or.inl h1)]
  · intro p g th h1 h2
    unfold calculate_single_anls
    rw [if_neg (by simp [h1, h2]), if_pos (Or.inr h2)]
  · intro p g th h1 h2
    unfold calculate_single_anls
    rw [if_neg (by simp [h1, h2]), if_neg (by simp [h1, h2])]
  · with_unfolding_all decide
  · with_unfolding_all decide
  · with_unfolding_all decide

/-- Witness for C7: the first clause applied at whitespace-only inputs. -/
theorem C7_single_anls_spec_witness :
    pyStrip (pyLower (chars " ")) = [] ∧ pyStrip (pyLower (chars "\t")) = [] ∧
    calculate_single_anls (chars " ") (chars "\t") (1/2) = 1 :=
  ⟨by decide, by decide,
    C7_single_anls_spec.1 (chars " ") (chars "\t") (1/2) (by decide) (by decide)⟩

/-- Claim C8: `calculate_iou` returns 0.0 unless both boxes have exactly 4
coordinates; it is symmetric; a box of positive area has IoU 1.0 with
itself; and disjoint boxes (separated along some axis) give 0.0. -/
theorem C8_iou_spec :
    (∀ a b : List ℚ, calculate_iou a b = calculate_iou b a) ∧
    (∀ a b : List ℚ, a.length ≠ 4 ∨ b.length ≠ 4 → calculate_iou a b = 0) ∧
    (∀ a0 a1 a2 a3 : ℚ, a0 < a2 → a1 < a3 →
      calculate_iou [a0, a1, a2, a3] [a0, a1, a2, a3] = 1) ∧
    (∀ a0 a1 a2 a3 b0 b1 b2 b3 : ℚ,
      a2 ≤ b0 ∨ b2 ≤ a0 ∨ a3 ≤ b1 ∨ b3 ≤ a1 →
      calculate_iou [a0, a1, a2, a3] [b0, b1, b2, b3] = 0) :=
  ⟨iou_comm, iou_zero_of_bad_length, iou_self, iou_disjoint⟩

/-- Witness for C8: the unit box has IoU 1 with itself, and two boxes
separated along the x axis have IoU 0. -/
theorem C8_iou_spec_witness :
    (0:ℚ) < 1 ∧
    calculate_iou [0, 0, 1, 1] [0, 0, 1, 1] = 1 ∧
    calculate_iou [0, 0, (1:ℚ)/4, 1] [(1:ℚ)/2, 0, 1, 1] = 0 :=
  ⟨by norm_num, C8_iou_spec.2.2.1 0 0 1 1 (by norm_num) (by norm_num),
    C8_iou_spec.2.2.2 0 0 (1/4) 1 (1/2) 0 1 1 (Or.inl (by norm_num))⟩

/-- Counterexample to claim C3 as stated: for `prediction = "hello"` and
`ground_truths = ["hello", "hallo"]`, exactly 1 of the 2 ground-truth
items is present verbatim as a prediction line, yet `calculate_anls`
returns 9/10, not 1/2: an absent ground-truth item still contributes its
best (above-threshold) similarity against the prediction lines. -/
theorem C3_anls_counterexample :
    chars "hello" ∈ pred_items (chars "hello") ∧
    chars "hallo" ∉ pred_items (chars "hello") ∧
    calculate_anls (chars "hello") [chars "hello", chars "hallo"] (1/2) = 9/10 ∧
    (9/10 : ℚ) ≠ (1/2 : ℚ) := by
  refine ⟨by decide, by decide, by with_unfolding_all decide, by norm_num⟩

/-- Claim C3, amended: for a ground-truth list of length at least 2,
`calculate_anls` splits the prediction on newline into trimmed non-empty
items and returns 0.0 when no items remain (there is no fallback to the
whole trimmed string); otherwise it returns the mean over ground-truth
items of the maximum `calculate_single_anls` against the prediction
items.  In particular, when exactly k of n ground-truth items occur
verbatim among the prediction items AND every other
(prediction item, ground-truth item) pair scores 0, the result is k/n. -/
theorem C3_anls_amended (p : List Char) (gts : List (List Char))
    (hlen : 2 ≤ gts.length)
    (habs : ∀ g ∈ gts, g ∉ pred_items p →
      ∀ it ∈ pred_items p, calculate_single_anls it g (1/2) = 0) :
    calculate_anls p gts (1/2) =
      ((gts.filter (fun g => decide (g ∈ pred_items p))).length : ℚ) / (gts.length : ℚ) := by
  have hne : gts ≠ [] := by
    intro h
    rw [h] at hlen
    simp at hlen
  have hlen1 : gts.length ≠ 1 := by omega
  unfold calculate_anls
  rw [if_neg hne, if_neg hlen1]
  by_cases hitems : pred_items p = []
  · rw [if_pos hitems]
    rw [show List.filter (fun g => decide (g ∈ pred_items p)) gts = [] by
      rw [List.filter_eq_nil]
      intro g _
      simp [hitems]]
    simp
  · rw [if_neg hitems]
    rw [foldl_sum_indicator (pred_items p) gts 0
      (fun g _ hg => bestAnls_eq_one (pred_items p) g hg)
      (fun g hgts hg => bestAnls_eq_zero (pred_items p) g (1/2) (habs g hgts hg))]
    rw [zero_add]

/-- Witness for the amended C3: prediction "a\nb" against ground truths
["a", "c"]: one of two items present, the absent item scores 0 against
both lines, result 1/2. -/
theorem C3_anls_amended_witness :
    2 ≤ ([chars "a", chars "c"] : List (List Char)).length ∧
    calculate_anls (chars "a\nb") [chars "a", chars "c"] (1/2) = 1/2 := by
  constructor
  · decide
  · have h := C3_anls_amended (chars "a\nb") [chars "a", chars "c"]
      (by decide) (by with_unfolding_all decide)
    rw [h]
    rw [show (List.filter (fun g => decide (g ∈ pred_items (chars "a\nb")))
      [chars "a", chars "c"]).length = 1 from by decide]
    norm_num

/-! ## Range facts: all metric values and running means stay in [0, 1] -/

theorem foldl_sum_bounds (items : List (List Char)) :
    ∀ (gts : List (List Char)) (acc : ℚ),
      acc ≤ gts.foldl (fun total gt => total + bestAnls items gt (1/2)) acc ∧
      gts.foldl (fun total gt => total + bestAnls items gt (1/2)) acc ≤ acc + gts.length := by
  intro gts
  induction gts with
  | nil => intro acc; simp
  | cons g gts ih =>
    intro acc
    have hb := bestAnls_bounds items g (1/2) (by norm_num)
    have hih := ih (acc + bestAnls items g (1/2))
    rw [show (g :: gts).foldl (fun total gt => total + bestAnls items gt (1/2)) acc =
      gts.foldl (fun total gt => total + bestAnls items gt (1/2))
        (acc + bestAnls items g (1/2)) from rfl]
    rw [List.length_cons]
    push_cast
    constructor
    · linarith [hih.1]
    · linarith [hih.2]

theorem anls_bounds (p : List Char) (gts : List (List Char)) :
    0 ≤ calculate_anls p gts (1/2) ∧ calculate_anls p gts (1/2) ≤ 1 := by
  unfold calculate_anls
  by_cases h0 : gts = []
  · rw [if_pos h0]; norm_num
  · rw [if_neg h0]
    by_cases h1 : gts.length = 1
    · rw [if_pos h1]
      exact single_anls_bounds _ _ _ (by norm_num)
    · rw [if_neg h1]
      by_cases h2 : pred_items p = []
      · rw [if_pos h2]; norm_num
      · rw [if_neg h2]
        have hlen : 0 < gts.length := List.length_pos.mpr h0
        have hlenq : (0:ℚ) < (gts.length : ℚ) := by exact_mod_cast hlen
        have hs := foldl_sum_bounds (pred_items p) gts 0
        rw [zero_add] at hs
        constructor
        · exact div_nonneg hs.1 hlenq.le
        · rw [div_le_one hlenq]
          exact hs.2

theorem iou_bounds (a b : List ℚ) :
    0 ≤ calculate_iou a b ∧ calculate_iou a b ≤ 1 := by
  by_cases ha : a.length = 4
  · by_cases hb : b.length = 4
    · obtain ⟨a0, a1, a2, a3, rfl⟩ := list_len4 a ha
      obtain ⟨b0, b1, b2, b3, rfl⟩ := list_len4 b hb
      rw [iou_eq]
      split
      · norm_num
      · next hcond =>
        push_neg at hcond
        have hi0 : (0:ℚ) ≤ max 0 (min a2 b2 - max a0 b0) * max 0 (min a3 b3 - max a1 b1) :=
          mul_nonneg (le_max_left 0 _) (le_max_left 0 _)
        constructor
        · exact div_nonneg hi0 hcond.le
        · rw [div_le_one hcond]
          by_cases hx : min a2 b2 - max a0 b0 ≤ 0
          · rw [max_eq_left hx, zero_mul] at hcond hi0 ⊢
            linarith
          · by_cases hy : min a3 b3 - max a1 b1 ≤ 0
            · rw [max_eq_left hy, mul_zero] at hcond hi0 ⊢
              linarith
            · push_neg at hx hy
              rw [max_eq_right hx.le, max_eq_right hy.le] at hcond ⊢
              have hxa : min a2 b2 - max a0 b0 ≤ a2 - a0 := by
                have := min_le_left a2 b2
                have := le_max_left a0 b0
                linarith
              have hya : min a3 b3 - max a1 b1 ≤ a3 - a1 := by
                have := min_le_left a3 b3
                have := le_max_left a1 b1
                linarith
              have hxb : min a2 b2 - max a0 b0 ≤ b2 - b0 := by
                have := min_le_right a2 b2
                have := le_max_right a0 b0
                linarith
              have hyb : min a3 b3 - max a1 b1 ≤ b3 - b1 := by
                have := min_le_right a3 b3
                have := le_max_right a1 b1
                linarith
              have hA : (min a2 b2 - max a0 b0) * (min a3 b3 - max a1 b1) ≤
                  (a2 - a0) * (a3 - a1) := by nlinarith
              have hB : (min a2 b2 - max a0 b0) * (min a3 b3 - max a1 b1) ≤
                  (b2 - b0) * (b3 - b1) := by nlinarith
              linarith
    · rw [iou_zero_of_bad_length _ _ (Or.inr hb)]; norm_num
  · rw [iou_zero_of_bad_length _ _ (Or.inl ha)]; norm_num

/-! ## Bounds for the decimal rounding -/

theorem rat_floor_eq_floor (q : ℚ) : Rat.floor q = ⌊q⌋ := by
  rw [Rat.floor_def', Rat.floor_def]

theorem roundHalfEven_cases (q : ℚ) :
    roundHalfEven q = ⌊q⌋ ∨
    (roundHalfEven q = ⌊q⌋ + 1 ∧ (1:ℚ)/2 ≤ q - (⌊q⌋ : ℚ)) := by
  simp only [roundHalfEven, rat_floor_eq_floor]
  split
  · exact Or.inl rfl
  · next hr =>
    push_neg at hr
    split
    · exact Or.inr ⟨rfl, hr⟩
    · split
      · exact Or.inl rfl
      · exact Or.inr ⟨rfl, hr⟩

theorem roundHalfEven_bounds (M : ℕ) (q : ℚ) (h0 : 0 ≤ q) (h1 : q ≤ (M : ℚ)) :
    0 ≤ roundHalfEven q ∧ roundHalfEven q ≤ (M : ℤ) := by
  have hf0 : 0 ≤ ⌊q⌋ := Int.floor_nonneg.mpr h0
  have hfM : ⌊q⌋ ≤ (M : ℤ) := by
    have h := Int.floor_le_floor h1
    rwa [Int.floor_natCast] at h
  rcases roundHalfEven_cases q with hc | ⟨hc, hr⟩
  · rw [hc]; exact ⟨hf0, hfM⟩
  · rw [hc]
    have hql : (⌊q⌋ : ℚ) + 1/2 ≤ q := by linarith
    have hlt : (⌊q⌋ : ℚ) < (M : ℚ) := by linarith
    have : ⌊q⌋ < (M : ℤ) := by exact_mod_cast hlt
    exact ⟨by omega, by omega⟩

theorem round_to_bounds (n : Nat) (x : ℚ) (h0 : 0 ≤ x) (h1 : x ≤ 1) :
    0 ≤ round_to n x ∧ round_to n x ≤ 1 := by
  unfold round_to
  have hPnat : 0 < (10 ^ n : ℕ) := Nat.pos_pow_of_pos n (by norm_num)
  have hP : (0:ℚ) < ((10 ^ n : ℕ) : ℚ) := by exact_mod_cast hPnat
  have hq0 : 0 ≤ x * ((10 ^ n : ℕ) : ℚ) := mul_nonneg h0 hP.le
  have hq1 : x * ((10 ^ n : ℕ) : ℚ) ≤ ((10 ^ n : ℕ) : ℚ) := by nlinarith
  have hb := roundHalfEven_bounds (10 ^ n) (x * ((10 ^ n : ℕ) : ℚ)) hq0 hq1
  have hb0 : (0:ℚ) ≤ ((roundHalfEven (x * ((10 ^ n : ℕ) : ℚ)) : ℤ) : ℚ) := by
    exact_mod_cast hb.1
  have hb1 : ((roundHalfEven (x * ((10 ^ n : ℕ) : ℚ)) : ℤ) : ℚ) ≤ ((10 ^ n : ℕ) : ℚ) := by
    exact_mod_cast hb.2
  constructor
  · exact div_nonneg hb0 hP.le
  · rw [div_le_one hP]
    exact hb1

/-! ## The running-state invariant of the per-sample loop -/

/-- The invariant of the loop state when the next index to process is `i`. -/
def ValidState (i : Nat) (st : LoopState) : Prop :=
  st.samplesEvaluated + st.samplesFailed ≤ i ∧
  0 ≤ st.runningAnls ∧ st.runningAnls ≤ 1 ∧
  0 ≤ st.runningIou ∧ st.runningIou ≤ 1

/-- The invariant of a persisted checkpoint with respect to a dataset. -/
def ValidCheckpoint (ds : List Sample) (c : Checkpoint) : Prop :=
  c.samplesEvaluated + c.samplesFailed ≤ c.sampleIndex ∧
  c.sampleIndex ≤ ds.length ∧
  0 ≤ c.runningAnls ∧ c.runningAnls ≤ 1 ∧
  0 ≤ c.runningIou ∧ c.runningIou ≤ 1

theorem running_mean_bounds (r v : ℚ) (n : ℕ) (hr0 : 0 ≤ r) (hr1 : r ≤ 1)
    (hv0 : 0 ≤ v) (hv1 : v ≤ 1) :
    0 ≤ r + (v - r) / ((n + 1 : ℕ) : ℚ) ∧ r + (v - r) / ((n + 1 : ℕ) : ℚ) ≤ 1 := by
  have hm : (0:ℚ) < ((n + 1 : ℕ) : ℚ) := by exact_mod_cast Nat.succ_pos n
  have hm1 : (1:ℚ) ≤ ((n + 1 : ℕ) : ℚ) := by exact_mod_cast Nat.succ_le_succ (Nat.zero_le n)
  have hrew : r + (v - r) / ((n + 1 : ℕ) : ℚ) =
      (r * ((n + 1 : ℕ) : ℚ) + v - r) / ((n + 1 : ℕ) : ℚ) := by
    field_simp
    ring
  rw [hrew]
  constructor
  · apply div_nonneg _ hm.le
    nlinarith
  · rw [div_le_one hm]
    nlinarith

theorem evalSample_valid (predictor : Predictor) (st : LoopState) (i : Nat) (s : Sample)
    (h : ValidState i st) : ValidState (i + 1) (evalSample predictor st i s) := by
  obtain ⟨hc, ha0, ha1, hi0, hi1⟩ := h
  unfold evalSample
  cases predictor s with
  | error e =>
    exact ⟨by simp; omega, by simpa, by simpa, by simpa, by simpa⟩
  | ok p =>
    have hanls := anls_bounds p.answer s.answers
    have hiou := iou_bounds p.bbox s.answer_bbox
    have hma := running_mean_bounds st.runningAnls (calculate_anls p.answer s.answers (1/2))
      st.samplesEvaluated ha0 ha1 hanls.1 hanls.2
    have hmi := running_mean_bounds st.runningIou (calculate_iou p.bbox s.answer_bbox)
      st.samplesEvaluated hi0 hi1 hiou.1 hiou.2
    refine ⟨by simp; omega, ?a0, ?a1, ?i0, ?i1⟩
    · simpa using hma.1
    · simpa using hma.2
    · simpa using hmi.1
    · simpa using hmi.2

theorem runLoop_valid (timeout : Nat → Bool) (predictor : Predictor) :
    ∀ (l : List Sample) (j : Nat) (st : LoopState), ValidState j st →
      (∀ i st', runLoop timeout predictor (enumFrom j l) st = .suspended i st' →
        ValidState i st' ∧ j ≤ i ∧ i < j + l.length) ∧
      (∀ st', runLoop timeout predictor (enumFrom j l) st = .finished st' →
        ValidState (j + l.length) st') := by
  intro l
  induction l with
  | nil =>
    intro j st h
    constructor
    · intro i st' hrun
      rw [show enumFrom j [] = [] from rfl] at hrun
      cases hrun
    · intro st' hrun
      rw [show enumFrom j [] = [] from rfl] at hrun
      cases hrun
      simpa using h
  | cons s l ih =>
    intro j st h
    rw [show enumFrom j (s :: l) = (j, s) :: enumFrom (j + 1) l from rfl]
    by_cases ht : timeout j
    · constructor
      · intro i st' hrun
        rw [show runLoop timeout predictor ((j, s) :: enumFrom (j + 1) l) st =
          .suspended j st from by rw [runLoop]; rw [if_pos ht]] at hrun
        cases hrun
        exact ⟨h, le_refl j, by simp only [List.length_cons]; omega⟩
      · intro st' hrun
        rw [show runLoop timeout predictor ((j, s) :: enumFrom (j + 1) l) st =
          .suspended j st from by rw [runLoop]; rw [if_pos ht]] at hrun
        cases hrun
    · have hstep : runLoop timeout predictor ((j, s) :: enumFrom (j + 1) l) st =
          runLoop timeout predictor (enumFrom (j + 1) l) (evalSample predictor st j s) := by
        rw [runLoop]; rw [if_neg ht]
      have hv := evalSample_valid predictor st j s h
      have hih := ih (j + 1) (evalSample predictor st j s) hv
      constructor
      · intro i st' hrun
        rw [hstep] at hrun
        obtain ⟨hv', hji, hlt⟩ := hih.1 i st' hrun
        exact ⟨hv', by omega, by simp only [List.length_cons]; omega⟩
      · intro st' hrun
        rw [hstep] at hrun
        have hfin := hih.2 st' hrun
        rw [show j + 1 + l.length = j + (s :: l).length by
          simp only [List.length_cons]; omega] at hfin
        exact hfin

/-! ## Characterization of one invocation by its loop outcome -/

theorem process_suspended (message : EvalMessage) (record : JobRecord) (ds : List Sample)
    (predictor : Predictor) (timeout : Nat → Bool) (i : Nat) (st : LoopState)
    (h : loopOutcomeOf record ds predictor timeout = .suspended i st) :
    process_evaluation_job message record ds predictor timeout =
      { record := { record with
          status := .RUNNING
          checkpoint := some (save_checkpoint i st.samplesEvaluated st.samplesFailed
            st.runningAnls st.runningIou
            (((load_checkpoint record).map Checkpoint.part).getD 1 +
              (if (decide (0 < startIndexOf record) : Bool) then 1 else 1))) }
        continuation := if message.evaluationQueueUrl = "" then none else some message
        raised := false
        statusWrites := [.RUNNING]
        predictorCalls := i - startIndexOf record } := by
  unfold process_evaluation_job
  rw [h]

theorem process_finished_failed (message : EvalMessage) (record : JobRecord) (ds : List Sample)
    (predictor : Predictor) (timeout : Nat → Bool) (st : LoopState)
    (h : loopOutcomeOf record ds predictor timeout = .finished st)
    (h0 : st.samplesEvaluated = 0) (hlen : 0 < ds.length) :
    process_evaluation_job message record ds predictor timeout =
      { record := { record with
          status := .FAILED
          errorMessage := some ((allFailedText ds.length st.failedErrors).take 1000) }
        continuation := none
        raised := true
        statusWrites := [.RUNNING, .FAILED]
        predictorCalls := ds.length - startIndexOf record } := by
  simp only [process_evaluation_job, h]
  rw [if_pos (show st.samplesEvaluated = 0 ∧ 0 < ds.length from ⟨h0, hlen⟩)]

theorem process_finished_completed (message : EvalMessage) (record : JobRecord)
    (ds : List Sample) (predictor : Predictor) (timeout : Nat → Bool) (st : LoopState)
    (h : loopOutcomeOf record ds predictor timeout = .finished st)
    (hok : ¬(st.samplesEvaluated = 0 ∧ 0 < ds.length)) :
    process_evaluation_job message record ds predictor timeout =
      { record := { record with
          status := .COMPLETED
          avgAnls := some (round_to 6 st.runningAnls)
          avgIou := some (round_to 6 st.runningIou)
          totalSamples := some st.samplesEvaluated
          failedSamples := some st.samplesFailed
          errorMessage :=
            if 0 < st.samplesFailed then
              some (completedErrorText st.samplesFailed st.failedErrors)
            else record.errorMessage
          checkpoint := none }
        continuation := none
        raised := false
        statusWrites := [.RUNNING, .COMPLETED]
        predictorCalls := ds.length - startIndexOf record } := by
  simp only [process_evaluation_job, h]
  rw [if_neg hok]

/-! ## Claim C6: the persisted-state invariant -/

theorem initLoopState_valid (record : JobRecord) (ds : List Sample)
    (hcp : ∀ c, load_checkpoint record = some c → ValidCheckpoint ds c) :
    ValidState (startIndexOf record) (initLoopState (load_checkpoint record)) ∧
      startIndexOf record ≤ ds.length := by
  cases hc : load_checkpoint record with
  | none =>
    have h1 : startIndexOf record = 0 := by
      unfold startIndexOf
      rw [hc]
      rfl
    rw [h1]
    constructor
    · exact ⟨by simp [initLoopState], by simp [initLoopState], by simp [initLoopState],
        by simp [initLoopState], by simp [initLoopState]⟩
    · exact Nat.zero_le _
  | some c =>
    have h1 : startIndexOf record = c.sampleIndex := by
      unfold startIndexOf
      rw [hc]
      rfl
    have hv := hcp c hc
    rw [h1]
    constructor
    · exact ⟨by simpa [initLoopState] using hv.1, by simpa [initLoopState] using hv.2.2.1,
        by simpa [initLoopState] using hv.2.2.2.1, by simpa [initLoopState] using hv.2.2.2.2.1,
        by simpa [initLoopState] using hv.2.2.2.2.2⟩
    · exact hv.2.1

/-- Claim C6: every job state the controller persists — each saved
checkpoint and the final completed record — satisfies
`samplesEvaluated + samplesFailed ≤ sampleIndex` (with the dataset length
playing the role of the next index for the final record) and keeps both
aggregates within [0, 1], provided the state it started from (the loaded
checkpoint, if any) was valid. -/
theorem C6_state_invariant (message : EvalMessage) (record : JobRecord) (ds : List Sample)
    (predictor : Predictor) (timeout : Nat → Bool)
    (hcp : ∀ c, load_checkpoint record = some c → ValidCheckpoint ds c) :
    (∀ c, (process_evaluation_job message record ds predictor timeout).record.checkpoint =
      some c → ValidCheckpoint ds c) ∧
    ((process_evaluation_job message record ds predictor timeout).record.status = .COMPLETED →
      ∃ a b t f, (process_evaluation_job message record ds predictor timeout).record.avgAnls =
          some a ∧
        (process_evaluation_job message record ds predictor timeout).record.avgIou = some b ∧
        (process_evaluation_job message record ds predictor timeout).record.totalSamples =
          some t ∧
        (process_evaluation_job message record ds predictor timeout).record.failedSamples =
          some f ∧
        0 ≤ a ∧ a ≤ 1 ∧ 0 ≤ b ∧ b ≤ 1 ∧ t + f ≤ ds.length) := by
  obtain ⟨hv0, hstart⟩ := initLoopState_valid record ds hcp
  have hlend : (ds.drop (startIndexOf record)).length = ds.length - startIndexOf record :=
    List.length_drop _ _
  have hloop := runLoop_valid timeout predictor (ds.drop (startIndexOf record))
    (startIndexOf record) (initLoopState (load_checkpoint record)) hv0
  cases hout : loopOutcomeOf record ds predictor timeout with
  | suspended i st =>
    have hs := hloop.1 i st (by
      rw [show loopOutcomeOf record ds predictor timeout =
        runLoop timeout predictor
          (enumFrom (startIndexOf record) (ds.drop (startIndexOf record)))
          (initLoopState (load_checkpoint record)) from rfl] at hout
      exact hout)
    obtain ⟨hvi, hle, hlt⟩ := hs
    rw [hlend] at hlt
    rw [process_suspended message record ds predictor timeout i st hout]
    constructor
    · intro c hcc
      rw [show ({ record with
          status := JobStatus.RUNNING
          checkpoint := some (save_checkpoint i st.samplesEvaluated st.samplesFailed
            st.runningAnls st.runningIou
            (((load_checkpoint record).map Checkpoint.part).getD 1 +
              (if (decide (0 < startIndexOf record) : Bool) then 1 else 1))) } :
          JobRecord).checkpoint =
        some (save_checkpoint i st.samplesEvaluated st.samplesFailed
          st.runningAnls st.runningIou
          (((load_checkpoint record).map Checkpoint.part).getD 1 +
            (if (decide (0 < startIndexOf record) : Bool) then 1 else 1))) from rfl] at hcc
      cases hcc
      have hra := round_to_bounds 8 st.runningAnls hvi.2.1 hvi.2.2.1
      have hri := round_to_bounds 8 st.runningIou hvi.2.2.2.1 hvi.2.2.2.2
      exact ⟨hvi.1, by show i ≤ ds.length; omega, hra.1, hra.2, hri.1, hri.2⟩
    · intro hst
      cases hst
  | finished st =>
    have hf := hloop.2 st (by
      rw [show loopOutcomeOf record ds predictor timeout =
        runLoop timeout predictor
          (enumFrom (startIndexOf record) (ds.drop (startIndexOf record)))
          (initLoopState (load_checkpoint record)) from rfl] at hout
      exact hout)
    rw [hlend] at hf
    by_cases hfail : st.samplesEvaluated = 0 ∧ 0 < ds.length
    · rw [process_finished_failed message record ds predictor timeout st hout hfail.1 hfail.2]
      constructor
      · intro c hcc
        exact hcp c hcc
      · intro hst
        cases hst
    · rw [process_finished_completed message record ds predictor timeout st hout hfail]
      constructor
      · intro c hcc
        cases hcc
      · intro _
        have hra := round_to_bounds 6 st.runningAnls hf.2.1 hf.2.2.1
        have hri := round_to_bounds 6 st.runningIou hf.2.2.2.1 hf.2.2.2.2
        refine ⟨round_to 6 st.runningAnls, round_to 6 st.runningIou,
          st.samplesEvaluated, st.samplesFailed, rfl, rfl, rfl, rfl,
          hra.1, hra.2, hri.1, hri.2, ?cnt⟩
        have := hf.1
        omega

/-! ## Loop composition lemmas for resumption -/

theorem runLoop_noTimeout (predictor : Predictor) :
    ∀ (pairs : List (Nat × Sample)) (st : LoopState),
      runLoop noTimeout predictor pairs st =
        .finished (pairs.foldl (fun st p => evalSample predictor st p.1 p.2) st) := by
  intro pairs
  induction pairs with
  | nil => intro st; rfl
  | cons p rest ih =>
    intro st
    rw [show runLoop noTimeout predictor (p :: rest) st =
      runLoop noTimeout predictor rest (evalSample predictor st p.1 p.2) from by
        rw [show (p :: rest) = ((p.1, p.2) :: rest) from by rw [Prod.mk.eta]]
        rw [runLoop]
        rw [if_neg (by simp [noTimeout])]]
    rw [ih]
    rfl

theorem runLoop_timeoutFrom (predictor : Predictor) :
    ∀ (l : List Sample) (j k : Nat) (st : LoopState), j ≤ k → k < j + l.length →
      runLoop (timeoutFrom k) predictor (enumFrom j l) st =
        .suspended k ((enumFrom j (l.take (k - j))).foldl
          (fun st p => evalSample predictor st p.1 p.2) st) := by
  intro l
  induction l with
  | nil =>
    intro j k st hjk hlt
    simp at hlt
    omega
  | cons s l ih =>
    intro j k st hjk hlt
    rw [show enumFrom j (s :: l) = (j, s) :: enumFrom (j + 1) l from rfl]
    by_cases hjk2 : j = k
    · subst hjk2
      rw [show runLoop (timeoutFrom j) predictor ((j, s) :: enumFrom (j + 1) l) st =
        .suspended j st from by
          rw [runLoop]
          rw [if_pos (by simp [timeoutFrom])]]
      rw [show j - j = 0 from by omega]
      rfl
    · have hjk3 : j + 1 ≤ k := by omega
      rw [show runLoop (timeoutFrom k) predictor ((j, s) :: enumFrom (j + 1) l) st =
        runLoop (timeoutFrom k) predictor (enumFrom (j + 1) l) (evalSample predictor st j s)
        from by
          rw [runLoop]
          rw [if_neg (by simp [timeoutFrom]; omega)]]
      rw [ih (j + 1) k (evalSample predictor st j s) hjk3
        (by simp only [List.length_cons] at hlt; omega)]
      rw [show (s :: l).take (k - j) = s :: l.take (k - (j + 1)) from by
        rw [show k - j = (k - (j + 1)) + 1 from by omega]
        rfl]
      rfl

theorem enumFrom_append :
    ∀ (l1 l2 : List Sample) (j : Nat),
      enumFrom j (l1 ++ l2) = enumFrom j l1 ++ enumFrom (j + l1.length) l2 := by
  intro l1
  induction l1 with
  | nil => intro l2 j; simp [enumFrom]
  | cons s l1 ih =>
    intro l2 j
    rw [show (s :: l1) ++ l2 = s :: (l1 ++ l2) from rfl]
    rw [show enumFrom j (s :: (l1 ++ l2)) = (j, s) :: enumFrom (j + 1) (l1 ++ l2) from rfl]
    rw [ih l2 (j + 1)]
    rw [show enumFrom j (s :: l1) = (j, s) :: enumFrom (j + 1) l1 from rfl]
    rw [show j + 1 + l1.length = j + (s :: l1).length from by
      simp only [List.length_cons]; omega]
    rfl

/-! ## Congruence of the loop in the state components that resumption
restores (the diagnostic list is reset on every invocation and never
feeds back into counts or running means) -/

/-- Agreement on the evaluated and failed counters. -/
def agreeCounts (st st' : LoopState) : Prop :=
  st.samplesEvaluated = st'.samplesEvaluated ∧ st.samplesFailed = st'.samplesFailed

/-- Agreement on counters and both running means. -/
def agreeCore (st st' : LoopState) : Prop :=
  st.samplesEvaluated = st'.samplesEvaluated ∧ st.samplesFailed = st'.samplesFailed ∧
  st.runningAnls = st'.runningAnls ∧ st.runningIou = st'.runningIou

theorem evalSample_counts_congr (predictor : Predictor) (st st' : LoopState) (i : Nat)
    (s : Sample) (h : agreeCounts st st') :
    agreeCounts (evalSample predictor st i s) (evalSample predictor st' i s) := by
  obtain ⟨h1, h2⟩ := h
  unfold evalSample
  cases predictor s with
  | error e => exact ⟨by simpa, by simp [h2]⟩
  | ok p => exact ⟨by simp [h1], by simpa⟩

theorem foldl_counts_congr (predictor : Predictor) :
    ∀ (pairs : List (Nat × Sample)) (st st' : LoopState), agreeCounts st st' →
      agreeCounts (pairs.foldl (fun st p => evalSample predictor st p.1 p.2) st)
        (pairs.foldl (fun st p => evalSample predictor st p.1 p.2) st') := by
  intro pairs
  induction pairs with
  | nil => intro st st' h; exact h
  | cons p rest ih =>
    intro st st' h
    exact ih _ _ (evalSample_counts_congr predictor st st' p.1 p.2 h)

theorem evalSample_core_congr (predictor : Predictor) (st st' : LoopState) (i : Nat)
    (s : Sample) (h : agreeCore st st') :
    agreeCore (evalSample predictor st i s) (evalSample predictor st' i s) := by
  obtain ⟨h1, h2, h3, h4⟩ := h
  unfold evalSample
  cases predictor s with
  | error e => exact ⟨by simpa, by simp [h2], by simpa, by simpa⟩
  | ok p => exact ⟨by simp [h1], by simpa, by simp [h1, h3], by simp [h1, h4]⟩

theorem foldl_core_congr (predictor : Predictor) :
    ∀ (pairs : List (Nat × Sample)) (st st' : LoopState), agreeCore st st' →
      agreeCore (pairs.foldl (fun st p => evalSample predictor st p.1 p.2) st)
        (pairs.foldl (fun st p => evalSample predictor st p.1 p.2) st') := by
  intro pairs
  induction pairs with
  | nil => intro st st' h; exact h
  | cons p rest ih =>
    intro st st' h
    exact ih _ _ (evalSample_core_congr predictor st st' p.1 p.2 h)

/-! ## Concrete fixtures used by witnesses and counterexamples -/

def msgQ : EvalMessage :=
  ⟨"ejid", "jid", "v1", "repo", "model", "name", "bid", "table", "queue-url"⟩

def msgNoQ : EvalMessage :=
  ⟨"ejid", "jid", "v1", "repo", "model", "name", "bid", "table", ""⟩

def recordFresh : JobRecord := ⟨.PENDING, none, none, none, none, none, none⟩

def recordDone : JobRecord := ⟨.COMPLETED, some 1, some 1, some 1, some 0, none, none⟩

/-- A deterministic predictor answering "a" with the full-image box. -/
def answerA : Predictor := fun _ => .ok ⟨chars "a", [0, 0, 1, 1]⟩

/-- A predictor that raises on every sample. -/
def failingPredictor : Predictor := fun _ => .error (chars "boom")

/-- A sample whose ground truth is "a" with box `[0, 0, 1, h]`; against
`answerA` its ANLS is 1 and its IoU is exactly `h`. -/
def gtSample (h : ℚ) : Sample := ⟨chars "q", [chars "a"], [0, 0, 1, h]⟩

def dsThirds : List Sample := [gtSample (1/3), gtSample (1/3)]

def dsHalf : List Sample := [gtSample (1/2), gtSample (1/2)]

/-- The loop state after one successful sample of `dsHalf`. -/
def stHalf : LoopState := ⟨1, 0, 1, 1/2, []⟩

/-- The loop state after the failing predictor consumed one sample. -/
def stFailOne : LoopState := ⟨0, 1, 0, 0, [sampleErrorText 0 (chars "boom")]⟩

/-! ## Claim C4 (suspension step) -/

/-- Counterexample to claim C4 as stated: suspending `dsThirds` before
sample 1 leaves current aggregate `runningIou = 1/3`, but the persisted
checkpoint holds `33333333/100000000`: `save_checkpoint` rounds the
aggregates to 8 decimal places, so the persisted value is not the current
aggregate. -/
theorem C4_suspension_counterexample :
    (stateUpTo answerA dsThirds 1).runningIou = 1/3 ∧
    ((process_evaluation_job msgQ recordFresh dsThirds answerA
      (timeoutFrom 1)).record.checkpoint.map Checkpoint.sampleIndex) = some 1 ∧
    (((process_evaluation_job msgQ recordFresh dsThirds answerA
      (timeoutFrom 1)).record.checkpoint.map Checkpoint.runningIou).getD 0).num = 33333333 ∧
    ((process_evaluation_job msgQ recordFresh dsThirds answerA
      (timeoutFrom 1)).record.checkpoint.map Checkpoint.runningIou).getD 0 ≠
      (stateUpTo answerA dsThirds 1).runningIou := by
  refine ⟨by with_unfolding_all decide, by with_unfolding_all decide,
    by with_unfolding_all decide, ?ne⟩
  intro hcontra
  have h2 := congrArg Rat.num hcontra
  have e1 : (((process_evaluation_job msgQ recordFresh dsThirds answerA
      (timeoutFrom 1)).record.checkpoint.map Checkpoint.runningIou).getD 0).num = 33333333 := by
    with_unfolding_all decide
  have e2 : ((stateUpTo answerA dsThirds 1).runningIou).num = 1 := by
    with_unfolding_all decide
  rw [e1, e2] at h2
  exact absurd h2 (by decide)

/-- Claim C4, amended: when the time budget is exhausted before sample `i`,
the invocation persists a checkpoint with `sampleIndex = i`, the current
counts, the current aggregates rounded to 8 decimal places, and `part`
incremented by exactly 1 over the loaded checkpoint's part (default 1);
it enqueues a continuation carrying the same message (the queue URL being
non-empty), performs no terminal-status write and leaves the job RUNNING,
returning without raising. -/
theorem C4_suspension_amended (message : EvalMessage) (record : JobRecord) (ds : List Sample)
    (predictor : Predictor) (timeout : Nat → Bool) (i : Nat) (st : LoopState)
    (h : loopOutcomeOf record ds predictor timeout = .suspended i st)
    (hq : message.evaluationQueueUrl ≠ "") :
    (process_evaluation_job message record ds predictor timeout).record.checkpoint =
      some { sampleIndex := i
             samplesEvaluated := st.samplesEvaluated
             samplesFailed := st.samplesFailed
             runningAnls := round_to 8 st.runningAnls
             runningIou := round_to 8 st.runningIou
             part := ((load_checkpoint record).map Checkpoint.part).getD 1 + 1 } ∧
    (process_evaluation_job message record ds predictor timeout).continuation = some message ∧
    (process_evaluation_job message record ds predictor timeout).record.status = .RUNNING ∧
    (process_evaluation_job message record ds predictor timeout).raised = false ∧
    (process_evaluation_job message record ds predictor timeout).statusWrites =
      [.RUNNING] := by
  rw [process_suspended message record ds predictor timeout i st h]
  have hone : (if (decide (0 < startIndexOf record) : Bool) then 1 else 1 : Nat) = 1 := by
    cases decide (0 < startIndexOf record) <;> rfl
  refine ⟨?cp, ?cont, rfl, rfl, rfl⟩
  · rw [hone]
    rfl
  · rw [if_neg hq]

/-- Witness for the amended C4 at a concrete suspension. -/
theorem C4_suspension_amended_witness :
    loopOutcomeOf recordFresh dsHalf answerA (timeoutFrom 1) = .suspended 1 stHalf ∧
    msgQ.evaluationQueueUrl ≠ "" ∧
    ((process_evaluation_job msgQ recordFresh dsHalf answerA (timeoutFrom 1)).record.checkpoint =
      some { sampleIndex := 1
             samplesEvaluated := stHalf.samplesEvaluated
             samplesFailed := stHalf.samplesFailed
             runningAnls := round_to 8 stHalf.runningAnls
             runningIou := round_to 8 stHalf.runningIou
             part := ((load_checkpoint recordFresh).map Checkpoint.part).getD 1 + 1 } ∧
    (process_evaluation_job msgQ recordFresh dsHalf answerA (timeoutFrom 1)).continuation =
      some msgQ ∧
    (process_evaluation_job msgQ recordFresh dsHalf answerA (timeoutFrom 1)).record.status =
      .RUNNING ∧
    (process_evaluation_job msgQ recordFresh dsHalf answerA (timeoutFrom 1)).raised = false ∧
    (process_evaluation_job msgQ recordFresh dsHalf answerA (timeoutFrom 1)).statusWrites =
      [.RUNNING]) :=
  ⟨by with_unfolding_all decide, by decide,
    C4_suspension_amended msgQ recordFresh dsHalf answerA (timeoutFrom 1) 1 stHalf
      (by with_unfolding_all decide) (by decide)⟩

/-! ## Claim C10 (suspension with no continuation queue URL) -/

/-- Claim C10: if the invocation message carries an empty continuation
queue URL, a timeout suspension still saves the checkpoint but emits no
continuation message, and the invocation returns normally, leaving the
job RUNNING with no scheduled resume. -/
theorem C10_suspension_without_queue (message : EvalMessage) (record : JobRecord)
    (ds : List Sample) (predictor : Predictor) (timeout : Nat → Bool) (i : Nat)
    (st : LoopState)
    (h : loopOutcomeOf record ds predictor timeout = .suspended i st)
    (hq : message.evaluationQueueUrl = "") :
    (process_evaluation_job message record ds predictor timeout).continuation = none ∧
    (process_evaluation_job message record ds predictor timeout).record.checkpoint.map
      Checkpoint.sampleIndex = some i ∧
    (process_evaluation_job message record ds predictor timeout).record.status = .RUNNING ∧
    (process_evaluation_job message record ds predictor timeout).raised = false ∧
    (process_evaluation_job message record ds predictor timeout).statusWrites =
      [.RUNNING] := by
  rw [process_suspended message record ds predictor timeout i st h]
  exact ⟨by rw [if_pos hq], rfl, rfl, rfl, rfl⟩

/-- Witness for C10 at a concrete suspension with an empty queue URL. -/
theorem C10_suspension_without_queue_witness :
    loopOutcomeOf recordFresh dsHalf answerA (timeoutFrom 1) = .suspended 1 stHalf ∧
    msgNoQ.evaluationQueueUrl = "" ∧
    ((process_evaluation_job msgNoQ recordFresh dsHalf answerA (timeoutFrom 1)).continuation =
      none ∧
    (process_evaluation_job msgNoQ recordFresh dsHalf answerA
      (timeoutFrom 1)).record.checkpoint.map Checkpoint.sampleIndex = some 1 ∧
    (process_evaluation_job msgNoQ recordFresh dsHalf answerA (timeoutFrom 1)).record.status =
      .RUNNING ∧
    (process_evaluation_job msgNoQ recordFresh dsHalf answerA (timeoutFrom 1)).raised = false ∧
    (process_evaluation_job msgNoQ recordFresh dsHalf answerA (timeoutFrom 1)).statusWrites =
      [.RUNNING]) :=
  ⟨by with_unfolding_all decide, rfl,
    C10_suspension_without_queue msgNoQ recordFresh dsHalf answerA (timeoutFrom 1) 1 stHalf
      (by with_unfolding_all decide) rfl⟩

/-! ## Claim C5 (terminal-status rule) -/

theorem allFailedText_infix (n : Nat) (errs : List (List Char)) :
    chars "samples failed" <:+: allFailedText n errs := by
  refine ⟨chars "All " ++ natChars n ++ chars " ",
    chars " to evaluate. Errors: " ++ joinSemi (errs.take 3), ?eq⟩
  unfold allFailedText
  rw [show chars " samples failed to evaluate. Errors: " =
    (chars " " ++ chars "samples failed") ++ chars " to evaluate. Errors: " from by decide]
  simp [List.append_assoc]

/-- Claim C5: when the loop finishes without suspension, a run with no
successful sample on a non-empty dataset persists FAILED with an error
message built from "All {n} samples failed to evaluate..." (truncated to
1000 characters, and referencing "samples failed") and re-raises;
otherwise the job is persisted COMPLETED with the rounded final
aggregates, the failure count, and the checkpoint field removed. -/
theorem C5_terminal_rule (message : EvalMessage) (record : JobRecord) (ds : List Sample)
    (predictor : Predictor) (timeout : Nat → Bool) (st : LoopState)
    (h : loopOutcomeOf record ds predictor timeout = .finished st) :
    (st.samplesEvaluated = 0 ∧ 0 < ds.length →
      (process_evaluation_job message record ds predictor timeout).record.status = .FAILED ∧
      (process_evaluation_job message record ds predictor timeout).raised = true ∧
      (process_evaluation_job message record ds predictor timeout).record.errorMessage =
        some ((allFailedText ds.length st.failedErrors).take 1000) ∧
      chars "samples failed" <:+: allFailedText ds.length st.failedErrors) ∧
    (¬(st.samplesEvaluated = 0 ∧ 0 < ds.length) →
      (process_evaluation_job message record ds predictor timeout).record.status = .COMPLETED ∧
      (process_evaluation_job message record ds predictor timeout).raised = false ∧
      (process_evaluation_job message record ds predictor timeout).record.avgAnls =
        some (round_to 6 st.runningAnls) ∧
      (process_evaluation_job message record ds predictor timeout).record.avgIou =
        some (round_to 6 st.runningIou) ∧
      (process_evaluation_job message record ds predictor timeout).record.totalSamples =
        some st.samplesEvaluated ∧
      (process_evaluation_job message record ds predictor timeout).record.failedSamples =
        some st.samplesFailed ∧
      (process_evaluation_job message record ds predictor timeout).record.checkpoint =
        none) := by
  constructor
  · intro hfail
    rw [process_finished_failed message record ds predictor timeout st h hfail.1 hfail.2]
    exact ⟨rfl, rfl, rfl, allFailedText_infix ds.length st.failedErrors⟩
  · intro hok
    rw [process_finished_completed message record ds predictor timeout st h hok]
    exact ⟨rfl, rfl, rfl, rfl, rfl, rfl, rfl⟩

/-- Witness for C5: the all-samples-failed branch on a one-sample dataset. -/
theorem C5_terminal_rule_witness :
    loopOutcomeOf recordFresh [gtSample 1] failingPredictor noTimeout = .finished stFailOne ∧
    stFailOne.samplesEvaluated = 0 ∧ 0 < ([gtSample 1] : List Sample).length ∧
    ((process_evaluation_job msgQ recordFresh [gtSample 1] failingPredictor
        noTimeout).record.status = .FAILED ∧
      (process_evaluation_job msgQ recordFresh [gtSample 1] failingPredictor
        noTimeout).raised = true ∧
      (process_evaluation_job msgQ recordFresh [gtSample 1] failingPredictor
        noTimeout).record.errorMessage =
        some ((allFailedText ([gtSample 1] : List Sample).length
          stFailOne.failedErrors).take 1000) ∧
      chars "samples failed" <:+:
        allFailedText ([gtSample 1] : List Sample).length stFailOne.failedErrors) :=
  ⟨by with_unfolding_all decide, rfl, by decide,
    (C5_terminal_rule msgQ recordFresh [gtSample 1] failingPredictor noTimeout stFailOne
      (by with_unfolding_all decide)).1 ⟨rfl, by decide⟩⟩

/-! ## Claim C2 (terminal idempotency) -/

/-- Claim C2 fails on the code: `process_evaluation_job` never reads the
persisted status before resuming.  Delivering a continuation message for
an already-COMPLETED job (its checkpoint removed on completion) marks the
job RUNNING again, re-invokes the predictor on every sample from index 0
(1 call on this one-sample dataset), and rewrites the terminal record:
not a no-op. -/
theorem C2_redelivery_not_noop :
    recordDone.status = .COMPLETED ∧
    recordDone.checkpoint = none ∧
    (process_evaluation_job msgQ recordDone [gtSample 1] answerA noTimeout).predictorCalls =
      1 ∧
    (process_evaluation_job msgQ recordDone [gtSample 1] answerA noTimeout).statusWrites =
      [.RUNNING, .COMPLETED] :=
  ⟨rfl, rfl, by with_unfolding_all decide, by with_unfolding_all decide⟩

/-! ## Claim C1 (resumption transparency) -/

/-- A dataset tuned so that the running IoU mean at the suspension point
(1/3) is not representable with 8 decimal digits and the checkpoint
rounding shifts the final persisted average across a 6-decimal rounding
boundary. -/
def dsFine : List Sample := [gtSample (1/3), gtSample (100000601/600000000)]

/-- The uninterrupted run over `dsFine`. -/
def unC1 : InvocationResult := process_evaluation_job msgQ recordFresh dsFine answerA noTimeout

/-- The first invocation of the interrupted run: suspends before sample 1. -/
def r1C1 : InvocationResult :=
  process_evaluation_job msgQ recordFresh dsFine answerA (timeoutFrom 1)

/-- The resumed invocation, continuing from the persisted checkpoint. -/
def reC1 : InvocationResult := process_evaluation_job msgQ r1C1.record dsFine answerA noTimeout

theorem option_eq_some_getD {o : Option ℚ} (h : o.isSome = true) : o = some (o.getD 0) := by
  cases o with
  | none => cases h
  | some x => rfl

/-- Counterexample to claim C1 as stated: with the same deterministic
predictor, suspending `dsFine` after sample 1 and resuming yields a
COMPLETED record whose `avgIou` (0.250000) differs from the uninterrupted
run's (0.250001), because `save_checkpoint` rounded the running mean 1/3
to 8 decimal places; the counts and `avgAnls` still agree. -/
theorem C1_resumption_counterexample :
    unC1.record.status = .COMPLETED ∧
    reC1.record.status = .COMPLETED ∧
    r1C1.record.status = .RUNNING ∧
    r1C1.record.checkpoint.map Checkpoint.sampleIndex = some 1 ∧
    unC1.record.totalSamples = reC1.record.totalSamples ∧
    unC1.record.failedSamples = reC1.record.failedSamples ∧
    unC1.record.avgAnls = reC1.record.avgAnls ∧
    unC1.record.avgIou ≠ reC1.record.avgIou := by
  refine ⟨by with_unfolding_all decide, by with_unfolding_all decide,
    by with_unfolding_all decide, by with_unfolding_all decide,
    by with_unfolding_all decide, by with_unfolding_all decide, ?anls, ?ne⟩
  · have h1 : unC1.record.avgAnls.isSome = true := by with_unfolding_all decide
    have h2 : reC1.record.avgAnls.isSome = true := by with_unfolding_all decide
    have v1 : unC1.record.avgAnls.getD 0 = 1 :=
      Rat.ext (by with_unfolding_all decide) (by with_unfolding_all decide)
    have v2 : reC1.record.avgAnls.getD 0 = 1 :=
      Rat.ext (by with_unfolding_all decide) (by with_unfolding_all decide)
    rw [option_eq_some_getD h1, option_eq_some_getD h2, v1, v2]
  · intro hcontra
    have h2 := congrArg (fun o : Option ℚ => (o.getD 0).num) hcontra
    have e1 : (unC1.record.avgIou.getD 0).num = 250001 := by with_unfolding_all decide
    have e2 : (reC1.record.avgIou.getD 0).num = 1 := by with_unfolding_all decide
    simp only [] at h2
    rw [e1, e2] at h2
    exact absurd h2 (by decide)

/-- Claim C1, amended: for every dataset, deterministic predictor and
suspension point `k`, the resumed run always restores the counts exactly
(`samplesEvaluated`, `samplesFailed`, and hence the final status); the
final aggregates `(avgAnls, avgIou)` also agree whenever the running
aggregates at the suspension point are exactly representable with 8
decimal digits — the precision to which `save_checkpoint` rounds them.
In general the two runs may differ by that checkpoint rounding. -/
theorem C1_resumption_amended (message : EvalMessage) (record : JobRecord) (ds : List Sample)
    (predictor : Predictor) (k : Nat)
    (hcp : record.checkpoint = none) (hk : k < ds.length) :
    ((process_evaluation_job message
        (process_evaluation_job message record ds predictor (timeoutFrom k)).record
        ds predictor noTimeout).record.status =
      (process_evaluation_job message record ds predictor noTimeout).record.status ∧
    (process_evaluation_job message
        (process_evaluation_job message record ds predictor (timeoutFrom k)).record
        ds predictor noTimeout).record.totalSamples =
      (process_evaluation_job message record ds predictor noTimeout).record.totalSamples ∧
    (process_evaluation_job message
        (process_evaluation_job message record ds predictor (timeoutFrom k)).record
        ds predictor noTimeout).record.failedSamples =
      (process_evaluation_job message record ds predictor noTimeout).record.failedSamples) ∧
    (round_to 8 (stateUpTo predictor ds k).runningAnls =
        (stateUpTo predictor ds k).runningAnls →
      round_to 8 (stateUpTo predictor ds k).runningIou =
        (stateUpTo predictor ds k).runningIou →
      (process_evaluation_job message
          (process_evaluation_job message record ds predictor (timeoutFrom k)).record
          ds predictor noTimeout).record.avgAnls =
        (process_evaluation_job message record ds predictor noTimeout).record.avgAnls ∧
      (process_evaluation_job message
          (process_evaluation_job message record ds predictor (timeoutFrom k)).record
          ds predictor noTimeout).record.avgIou =
        (process_evaluation_job message record ds predictor noTimeout).record.avgIou) := by
  have hl : load_checkpoint record = none := hcp
  have hstart : startIndexOf record = 0 := by
    unfold startIndexOf
    rw [hl]
    rfl
  have hout1 : loopOutcomeOf record ds predictor (timeoutFrom k) =
      .suspended k (stateUpTo predictor ds k) := by
    unfold loopOutcomeOf
    rw [hstart, hl, List.drop_zero]
    rw [runLoop_timeoutFrom predictor ds 0 k (initLoopState none) (Nat.zero_le k) (by omega)]
    rfl
  have hr1 := process_suspended message record ds predictor (timeoutFrom k) k
    (stateUpTo predictor ds k) hout1
  have r1rec : (process_evaluation_job message record ds predictor (timeoutFrom k)).record =
      { record with
        status := .RUNNING
        checkpoint := some (save_checkpoint k (stateUpTo predictor ds k).samplesEvaluated
          (stateUpTo predictor ds k).samplesFailed (stateUpTo predictor ds k).runningAnls
          (stateUpTo predictor ds k).runningIou
          (((load_checkpoint record).map Checkpoint.part).getD 1 +
            (if (decide (0 < startIndexOf record) : Bool) then 1 else 1))) } := by
    rw [hr1]
  have hl2 : load_checkpoint
      (process_evaluation_job message record ds predictor (timeoutFrom k)).record =
      some (save_checkpoint k (stateUpTo predictor ds k).samplesEvaluated
        (stateUpTo predictor ds k).samplesFailed (stateUpTo predictor ds k).runningAnls
        (stateUpTo predictor ds k).runningIou
        (((load_checkpoint record).map Checkpoint.part).getD 1 +
          (if (decide (0 < startIndexOf record) : Bool) then 1 else 1))) := by
    rw [show load_checkpoint
      (process_evaluation_job message record ds predictor (timeoutFrom k)).record =
      (process_evaluation_job message record ds predictor (timeoutFrom k)).record.checkpoint
      from rfl]
    rw [r1rec]
  have hstart2 : startIndexOf
      (process_evaluation_job message record ds predictor (timeoutFrom k)).record = k := by
    unfold startIndexOf
    rw [hl2]
    rfl
  have hout2 : loopOutcomeOf
      (process_evaluation_job message record ds predictor (timeoutFrom k)).record
      ds predictor noTimeout =
      .finished ((enumFrom k (ds.drop k)).foldl (fun st p => evalSample predictor st p.1 p.2)
        (initLoopState (some (save_checkpoint k (stateUpTo predictor ds k).samplesEvaluated
          (stateUpTo predictor ds k).samplesFailed (stateUpTo predictor ds k).runningAnls
          (stateUpTo predictor ds k).runningIou
          (((load_checkpoint record).map Checkpoint.part).getD 1 +
            (if (decide (0 < startIndexOf record) : Bool) then 1 else 1)))))) := by
    unfold loopOutcomeOf
    rw [hstart2, hl2, runLoop_noTimeout]
  have hout0 : loopOutcomeOf record ds predictor noTimeout =
      .finished ((enumFrom k (ds.drop k)).foldl (fun st p => evalSample predictor st p.1 p.2)
        (stateUpTo predictor ds k)) := by
    unfold loopOutcomeOf
    rw [hstart, hl, List.drop_zero, runLoop_noTimeout]
    congr 1
    conv_lhs => rw [← List.take_append_drop k ds]
    rw [enumFrom_append, List.foldl_append]
    rw [List.length_take, Nat.min_eq_left (le_of_lt hk), Nat.zero_add]
    rfl
  have hcounts : agreeCounts
      ((enumFrom k (ds.drop k)).foldl (fun st p => evalSample predictor st p.1 p.2)
        (initLoopState (some (save_checkpoint k (stateUpTo predictor ds k).samplesEvaluated
          (stateUpTo predictor ds k).samplesFailed (stateUpTo predictor ds k).runningAnls
          (stateUpTo predictor ds k).runningIou
          (((load_checkpoint record).map Checkpoint.part).getD 1 +
            (if (decide (0 < startIndexOf record) : Bool) then 1 else 1))))))
      ((enumFrom k (ds.drop k)).foldl (fun st p => evalSample predictor st p.1 p.2)
        (stateUpTo predictor ds k)) :=
    foldl_counts_congr predictor _ _ _ ⟨rfl, rfl⟩
  by_cases hfb : ((enumFrom k (ds.drop k)).foldl (fun st p => evalSample predictor st p.1 p.2)
      (stateUpTo predictor ds k)).samplesEvaluated = 0 ∧ 0 < ds.length
  · have hfb2 : ((enumFrom k (ds.drop k)).foldl (fun st p => evalSample predictor st p.1 p.2)
        (initLoopState (some (save_checkpoint k (stateUpTo predictor ds k).samplesEvaluated
          (stateUpTo predictor ds k).samplesFailed (stateUpTo predictor ds k).runningAnls
          (stateUpTo predictor ds k).runningIou
          (((load_checkpoint record).map Checkpoint.part).getD 1 +
            (if (decide (0 < startIndexOf record) : Bool) then 1 else 1)))))).samplesEvaluated
        = 0 ∧ 0 < ds.length := by
      rw [hcounts.1]
      exact hfb
    have hRe := process_finished_failed message
      (process_evaluation_job message record ds predictor (timeoutFrom k)).record
      ds predictor noTimeout _ hout2 hfb2.1 hfb2.2
    have hUn := process_finished_failed message record ds predictor noTimeout _
      hout0 hfb.1 hfb.2
    rw [hRe, hUn, r1rec]
    exact ⟨⟨rfl, rfl, rfl⟩, fun _ _ => ⟨rfl, rfl⟩⟩
  · have hfb2 : ¬(((enumFrom k (ds.drop k)).foldl (fun st p => evalSample predictor st p.1 p.2)
        (initLoopState (some (save_checkpoint k (stateUpTo predictor ds k).samplesEvaluated
          (stateUpTo predictor ds k).samplesFailed (stateUpTo predictor ds k).runningAnls
          (stateUpTo predictor ds k).runningIou
          (((load_checkpoint record).map Checkpoint.part).getD 1 +
            (if (decide (0 < startIndexOf record) : Bool) then 1 else 1)))))).samplesEvaluated
        = 0 ∧ 0 < ds.length) := by
      rw [hcounts.1]
      exact hfb
    have hRe := process_finished_completed message
      (process_evaluation_job message record ds predictor (timeoutFrom k)).record
      ds predictor noTimeout _ hout2 hfb2
    have hUn := process_finished_completed message record ds predictor noTimeout _
      hout0 hfb
    rw [hRe, hUn, r1rec]
    refine ⟨⟨rfl, ?tot, ?fld⟩, ?cond⟩
    · show some ((enumFrom k (ds.drop k)).foldl (fun st p => evalSample predictor st p.1 p.2)
        (initLoopState (some (save_checkpoint k (stateUpTo predictor ds k).samplesEvaluated
          (stateUpTo predictor ds k).samplesFailed (stateUpTo predictor ds k).runningAnls
          (stateUpTo predictor ds k).runningIou
          (((load_checkpoint record).map Checkpoint.part).getD 1 +
            (if (decide (0 < startIndexOf record) : Bool) then 1 else 1)))))).samplesEvaluated =
        some ((enumFrom k (ds.drop k)).foldl (fun st p => evalSample predictor st p.1 p.2)
          (stateUpTo predictor ds k)).samplesEvaluated
      rw [hcounts.1]
    · show some ((enumFrom k (ds.drop k)).foldl (fun st p => evalSample predictor st p.1 p.2)
        (initLoopState (some (save_checkpoint k (stateUpTo predictor ds k).samplesEvaluated
          (stateUpTo predictor ds k).samplesFailed (stateUpTo predictor ds k).runningAnls
          (stateUpTo predictor ds k).runningIou
          (((load_checkpoint record).map Checkpoint.part).getD 1 +
            (if (decide (0 < startIndexOf record) : Bool) then 1 else 1)))))).samplesFailed =
        some ((enumFrom k (ds.drop k)).foldl (fun st p => evalSample predictor st p.1 p.2)
          (stateUpTo predictor ds k)).samplesFailed
      rw [hcounts.2]
    · intro hexa hexi
      have hcore : agreeCore
          (initLoopState (some (save_checkpoint k (stateUpTo predictor ds k).samplesEvaluated
            (stateUpTo predictor ds k).samplesFailed (stateUpTo predictor ds k).runningAnls
            (stateUpTo predictor ds k).runningIou
            (((load_checkpoint record).map Checkpoint.part).getD 1 +
              (if (decide (0 < startIndexOf record) : Bool) then 1 else 1)))))
          (stateUpTo predictor ds k) := ⟨rfl, rfl, hexa, hexi⟩
      have hfold := foldl_core_congr predictor (enumFrom k (ds.drop k)) _ _ hcore
      constructor
      · show some (round_to 6 ((enumFrom k (ds.drop k)).foldl
          (fun st p => evalSample predictor st p.1 p.2)
          (initLoopState (some (save_checkpoint k (stateUpTo predictor ds k).samplesEvaluated
            (stateUpTo predictor ds k).samplesFailed (stateUpTo predictor ds k).runningAnls
            (stateUpTo predictor ds k).runningIou
            (((load_checkpoint record).map Checkpoint.part).getD 1 +
              (if (decide (0 < startIndexOf record) : Bool) then 1 else 1)))))).runningAnls) =
          some (round_to 6 ((enumFrom k (ds.drop k)).foldl
            (fun st p => evalSample predictor st p.1 p.2)
            (stateUpTo predictor ds k)).runningAnls)
        rw [hfold.2.2.1]
      · show some (round_to 6 ((enumFrom k (ds.drop k)).foldl
          (fun st p => evalSample predictor st p.1 p.2)
          (initLoopState (some (save_checkpoint k (stateUpTo predictor ds k).samplesEvaluated
            (stateUpTo predictor ds k).samplesFailed (stateUpTo predictor ds k).runningAnls
            (stateUpTo predictor ds k).runningIou
            (((load_checkpoint record).map Checkpoint.part).getD 1 +
              (if (decide (0 < startIndexOf record) : Bool) then 1 else 1)))))).runningIou) =
          some (round_to 6 ((enumFrom k (ds.drop k)).foldl
            (fun st p => evalSample predictor st p.1 p.2)
            (stateUpTo predictor ds k)).runningIou)
        rw [hfold.2.2.2]

/-- Witness for the amended C1: on `dsHalf` the running aggregates at the
suspension point (1 and 1/2) are 8-decimal exact, so the resumed run
reproduces the uninterrupted run exactly. -/
theorem C1_resumption_amended_witness :
    recordFresh.checkpoint = none ∧
    1 < (dsHalf : List Sample).length ∧
    round_to 8 (stateUpTo answerA dsHalf 1).runningAnls =
      (stateUpTo answerA dsHalf 1).runningAnls ∧
    round_to 8 (stateUpTo answerA dsHalf 1).runningIou =
      (stateUpTo answerA dsHalf 1).runningIou ∧
    ((process_evaluation_job msgQ
        (process_evaluation_job msgQ recordFresh dsHalf answerA (timeoutFrom 1)).record
        dsHalf answerA noTimeout).record.status =
      (process_evaluation_job msgQ recordFresh dsHalf answerA noTimeout).record.status ∧
    (process_evaluation_job msgQ
        (process_evaluation_job msgQ recordFresh dsHalf answerA (timeoutFrom 1)).record
        dsHalf answerA noTimeout).record.totalSamples =
      (process_evaluation_job msgQ recordFresh dsHalf answerA noTimeout).record.totalSamples ∧
    (process_evaluation_job msgQ
        (process_evaluation_job msgQ recordFresh dsHalf answerA (timeoutFrom 1)).record
        dsHalf answerA noTimeout).record.failedSamples =
      (process_evaluation_job msgQ recordFresh dsHalf answerA noTimeout).record.failedSamples ∧
    (process_evaluation_job msgQ
        (process_evaluation_job msgQ recordFresh dsHalf answerA (timeoutFrom 1)).record
        dsHalf answerA noTimeout).record.avgAnls =
      (process_evaluation_job msgQ recordFresh dsHalf answerA noTimeout).record.avgAnls ∧
    (process_evaluation_job msgQ
        (process_evaluation_job msgQ recordFresh dsHalf answerA (timeoutFrom 1)).record
        dsHalf answerA noTimeout).record.avgIou =
      (process_evaluation_job msgQ recordFresh dsHalf answerA noTimeout).record.avgIou) := by
  have hexa : round_to 8 (stateUpTo answerA dsHalf 1).runningAnls =
      (stateUpTo answerA dsHalf 1).runningAnls :=
    Rat.ext (by with_unfolding_all decide) (by with_unfolding_all decide)
  have hexi : round_to 8 (stateUpTo answerA dsHalf 1).runningIou =
      (stateUpTo answerA dsHalf 1).runningIou :=
    Rat.ext (by with_unfolding_all decide) (by with_unfolding_all decide)
  have h := C1_resumption_amended msgQ recordFresh dsHalf answerA 1 rfl (by decide)
  have h2 := h.2 hexa hexi
  exact ⟨rfl, by decide, hexa, hexi, h.1.1, h.1.2.1, h.1.2.2, h2.1, h2.2⟩

/-- Witness for C6: a fresh one-sample job satisfies the hypothesis (no
checkpoint loaded) and the persisted-state invariant of its invocation. -/
theorem C6_state_invariant_witness :
    load_checkpoint recordFresh = none ∧
    ((∀ c, (process_evaluation_job msgQ recordFresh [gtSample 1] answerA
        noTimeout).record.checkpoint = some c → ValidCheckpoint [gtSample 1] c) ∧
    ((process_evaluation_job msgQ recordFresh [gtSample 1] answerA
        noTimeout).record.status = .COMPLETED →
      ∃ a b t f, (process_evaluation_job msgQ recordFresh [gtSample 1] answerA
          noTimeout).record.avgAnls = some a ∧
        (process_evaluation_job msgQ recordFresh [gtSample 1] answerA
          noTimeout).record.avgIou = some b ∧
        (process_evaluation_job msgQ recordFresh [gtSample 1] answerA
          noTimeout).record.totalSamples = some t ∧
        (process_evaluation_job msgQ recordFresh [gtSample 1] answerA
          noTimeout).record.failedSamples = some f ∧
        0 ≤ a ∧ a ≤ 1 ∧ 0 ≤ b ∧ b ≤ 1 ∧ t + f ≤ ([gtSample 1] : List Sample).length)) :=
  ⟨rfl, C6_state_invariant msgQ recordFresh [gtSample 1] answerA noTimeout
    (fun c h => by rw [show load_checkpoint recordFresh = none from rfl] at h; cases h)⟩
